import Mathlib

/-!
# Agent server of the model scheduler (`scheduler/pkg/agent/server.go`)

A shallow embedding of the agent-facing control plane: the subscriber registry,
the reconciler `Sync`, the status ingestor `AgentEvent`, the scaling pathway
(`applyModelScaling` and its helpers) and the subscription handler `Subscribe`.

The model store, the scheduler, the outbound streams and the clock are external
collaborators.  They are represented by an environment `Env σ` of operations over
an arbitrary world state `σ`; every call the server makes on them is recorded, in
program order, in a list of `Action`s.
-/

namespace Agent

/-! ## Machine integers -/

/-- Go conversion `uint32(x)` applied to an `int`. -/
def uint32 (x : Int) : Nat := (x % 4294967296).toNat

/-- Result of 64-bit `int` arithmetic: the mathematical value wrapped to two's complement. -/
def wrapInt (x : Int) : Int :=
  (x + 9223372036854775808) % 18446744073709551616 - 9223372036854775808

/-! ## Data model -/

/-- Error values of the external collaborators are opaque texts. -/
abbrev Err := String

/-- The replica states of `store.ModelReplicaState` that the server refers to.
`ModelReplicaStateUnknown` is the zero value of the type. -/
inductive ModelReplicaState
  | ModelReplicaStateUnknown
  | LoadRequested
  | Loading
  | Loaded
  | LoadFailed
  | UnloadRequested
  | Unloading
  | Unloaded
  | UnloadFailed
  deriving DecidableEq, Repr

/-- The `pbs.MetaData` message, reduced to the field the server reads. -/
structure MetaData where
  Name : String
  deriving DecidableEq, Repr

/-- The `pbs.DeploymentSpec` message, reduced to the fields the server uses.
`MinReplicas` and `MaxReplicas` are optional `uint32` fields. -/
structure DeploymentSpec where
  Replicas : Nat
  MinReplicas : Option Nat
  MaxReplicas : Option Nat
  deriving DecidableEq, Repr

/-- The `pbs.Model` message; both sub-messages are pointers and may be nil. -/
structure Model where
  Meta : Option MetaData
  Spec : Option DeploymentSpec
  deriving DecidableEq, Repr

/-- Nil-safe getter chain `model.GetMeta().GetName()`. -/
def Model.GetName (m : Model) : String :=
  match m.Meta with
  | none => ""
  | some md => md.Name

/-- Nil-safe getter `model.DeploymentSpec.GetMinReplicas()`. -/
def Model.GetMinReplicas (m : Model) : Nat :=
  match m.Spec with
  | none => 0
  | some d => d.MinReplicas.getD 0

/-- Nil-safe getter `model.DeploymentSpec.GetMaxReplicas()`. -/
def Model.GetMaxReplicas (m : Model) : Nat :=
  match m.Spec with
  | none => 0
  | some d => d.MaxReplicas.getD 0

/-- A `store.ModelVersion` as seen through the accessors the server calls.
`Timestamp` stands for `ModelState().Timestamp`, in nanoseconds. -/
structure ModelVersion where
  GetVersion : Nat
  Server : String
  Key : String
  GetModel : Model
  GetReplicaForState : ModelReplicaState → List Int
  GetAssignment : List Int
  Timestamp : Int

/-- The model object returned by `store.GetModel`, with the results of the two
selectors the server calls on it. -/
structure ModelSnapshot where
  Versions : List ModelVersion
  GetLatest : Option ModelVersion
  GetLastAvailableModel : Option ModelVersion

/-- Operation code of `pb.ModelOperationMessage`. -/
inductive Operation
  | LOAD_MODEL
  | UNLOAD_MODEL
  deriving DecidableEq, Repr

/-- The `pb.ModelVersion` message carried by an operation message. -/
structure PbModelVersion where
  Model : Model
  Version : Nat
  deriving DecidableEq, Repr

/-- The `pb.ModelOperationMessage` pushed to an agent. -/
structure ModelOperationMessage where
  Operation : Operation
  ModelVersion : PbModelVersion
  deriving DecidableEq, Repr

/-- Event code of `pb.ModelEventMessage`; `other` stands for every code without a
case of its own in `AgentEvent`. -/
inductive Event
  | LOADED
  | UNLOADED
  | LOAD_FAILED
  | LOAD_FAIL_MEMORY
  | UNLOAD_FAILED
  | other (code : Int)
  deriving DecidableEq, Repr

/-- The `pb.ModelEventMessage` status report of an agent. -/
structure ModelEventMessage where
  ServerName : String
  ReplicaIdx : Nat
  ModelName : String
  ModelVersion : Nat
  Event : Event
  Message : String
  AvailableMemoryBytes : Nat
  deriving DecidableEq, Repr

/-- Trigger code of `pb.ModelScalingTriggerMessage`. -/
inductive Trigger
  | SCALE_UP
  | SCALE_DOWN
  | other (code : Int)
  deriving DecidableEq, Repr

/-- The `pb.ModelScalingTriggerMessage` sent by an agent. -/
structure ModelScalingTriggerMessage where
  ServerName : String
  ReplicaIdx : Nat
  ModelName : String
  ModelVersion : Nat
  Trigger : Trigger
  deriving DecidableEq, Repr

/-- The `pb.AgentSubscribeRequest`, reduced to the replica identity. -/
structure AgentSubscribeRequest where
  ServerName : String
  ReplicaIdx : Nat
  deriving DecidableEq, Repr

/-- Key of the subscriber registry. -/
structure ServerKey where
  serverName : String
  replicaIdx : Nat
  deriving DecidableEq, Repr

/-- A registry entry: the close-signal channel and the outbound stream, both
identified by a handle.  The send mutex carries no data. -/
structure AgentSubscriber where
  finished : Nat
  stream : Nat
  deriving DecidableEq, Repr

/-- Arguments of one `store.UpdateModelState` call. -/
structure UpdateModelStateCall where
  modelKey : String
  version : Nat
  serverKey : String
  replicaIdx : Int
  availableMemory : Option Nat
  expectedState : ModelReplicaState
  desiredState : ModelReplicaState
  reason : String
  deriving DecidableEq, Repr

/-! ## The registry map -/

/-- The Go map `map[ServerKey]*AgentSubscriber` as a list of entries. -/
abbrev AgentsMap := List (ServerKey × AgentSubscriber)

/-- Map read `agents[key]`. -/
def mapLookup (agents : AgentsMap) (key : ServerKey) : Option AgentSubscriber :=
  match agents with
  | [] => none
  | (k, v) :: rest => if k = key then some v else mapLookup rest key

/-- Map removal `delete(agents, key)`. -/
def mapDelete (agents : AgentsMap) (key : ServerKey) : AgentsMap :=
  agents.filter (fun e => decide (e.1 ≠ key))

/-- Map write `agents[key] = sub`: an entry under the same key is replaced. -/
def mapInsert (agents : AgentsMap) (key : ServerKey) (sub : AgentSubscriber) : AgentsMap :=
  (key, sub) :: mapDelete agents key

/-- The entries the map holds under `key`. -/
def entriesFor (agents : AgentsMap) (key : ServerKey) : List AgentSubscriber :=
  (agents.filter (fun e => decide (e.1 = key))).map Prod.snd

/-! ## Actions and environment -/

/-- The observable steps of the server, in program order: lock operations, registry
accesses and the calls on the external collaborators together with their results. -/
inductive Action
  | registryRLock
  | registryRUnlock
  | registryLock
  | registryUnlock
  | registryRead (key : ServerKey) (found : Bool)
  | registryInsert (key : ServerKey) (sub : AgentSubscriber)
  | registryDelete (key : ServerKey)
  | subscriberLock (sub : AgentSubscriber)
  | subscriberUnlock (sub : AgentSubscriber)
  | LockModel (name : String)
  | UnlockModel (name : String)
  | GetModel (name : String)
  | Send (stream : Nat) (msg : ModelOperationMessage) (err : Option Err)
  | UpdateModelState (call : UpdateModelStateCall) (err : Option Err)
  | UpdateModel (model : Model) (err : Option Err)
  | AddServerReplica (request : AgentSubscribeRequest) (err : Option Err)
  | ScheduleFailedModels (err : Option Err)
  | RemoveServerReplica (serverName : String) (replicaIdx : Int)
      (modelsChanged : List String) (err : Option Err)
  | Schedule (name : String) (err : Option Err)
  deriving DecidableEq, Repr

/-- The external collaborators over a world state `σ`: the model store, the
scheduler, the transport of the outbound streams and the clock. -/
structure Env (σ : Type) where
  GetModel : σ → String → Option ModelSnapshot × Option Err
  UpdateModelState : σ → UpdateModelStateCall → σ × Option Err
  UpdateModel : σ → Model → σ × Option Err
  AddServerReplica : σ → AgentSubscribeRequest → σ × Option Err
  RemoveServerReplica : σ → String → Int → σ × List String × Option Err
  Schedule : σ → String → σ × Option Err
  ScheduleFailedModels : σ → σ × Option Err
  Send : σ → Nat → ModelOperationMessage → σ × Option Err
  Now : σ → Int

/-! ## Reconciler: `Sync` -/

/-- Body shared by the two replica loops of `Sync` (lines 170-193 and 200-220):
look the subscriber up, send the operation under its lock, and on a successful
send ask the store to move the replica from `expected` to `desired`.  Every
`continue` of the source ends the body. -/
def syncReplica {σ : Type} (env : Env σ) (agents : AgentsMap) (op : Operation)
    (expected desired : ModelReplicaState) (mv : ModelVersion) (replicaIdx : Int) (w : σ) :
    σ × List Action :=
  let key : ServerKey := { serverName := mv.Server, replicaIdx := uint32 replicaIdx }
  match mapLookup agents key with
  | none => (w, [Action.registryRead key false])
  | some sub =>
    let msg : ModelOperationMessage :=
      { Operation := op, ModelVersion := { Model := mv.GetModel, Version := mv.GetVersion } }
    let sent := env.Send w sub.stream msg
    let acts := [Action.registryRead key true, Action.subscriberLock sub,
      Action.Send sub.stream msg sent.2, Action.subscriberUnlock sub]
    match sent.2 with
    | some _ => (sent.1, acts)
    | none =>
      let call : UpdateModelStateCall :=
        { modelKey := mv.Key, version := mv.GetVersion, serverKey := mv.Server,
          replicaIdx := replicaIdx, availableMemory := none,
          expectedState := expected, desiredState := desired, reason := "" }
      let upd := env.UpdateModelState sent.1 call
      (upd.1, acts ++ [Action.UpdateModelState call upd.2])

/-- The loop over the replica indexes of one version. -/
def syncReplicas {σ : Type} (env : Env σ) (agents : AgentsMap) (op : Operation)
    (expected desired : ModelReplicaState) (mv : ModelVersion) :
    List Int → σ → σ × List Action
  | [], w => (w, [])
  | r :: rs, w =>
    let one := syncReplica env agents op expected desired mv r w
    let more := syncReplicas env agents op expected desired mv rs one.1
    (more.1, one.2 ++ more.2)

/-- Load pass of `Sync` (lines 167-195): only the latest version. -/
def syncLoads {σ : Type} (env : Env σ) (agents : AgentsMap) (model : ModelSnapshot) (w : σ) :
    σ × List Action :=
  match model.GetLatest with
  | none => (w, [])
  | some latestModel =>
    syncReplicas env agents Operation.LOAD_MODEL ModelReplicaState.LoadRequested
      ModelReplicaState.Loading latestModel
      (latestModel.GetReplicaForState ModelReplicaState.LoadRequested) w

/-- Unload pass of `Sync` (lines 198-222): every version of the model. -/
def syncUnloads {σ : Type} (env : Env σ) (agents : AgentsMap) :
    List ModelVersion → σ → σ × List Action
  | [], w => (w, [])
  | modelVersion :: rest, w =>
    let one := syncReplicas env agents Operation.UNLOAD_MODEL ModelReplicaState.UnloadRequested
      ModelReplicaState.Unloading modelVersion
      (modelVersion.GetReplicaForState ModelReplicaState.UnloadRequested) w
    let more := syncUnloads env agents rest one.1
    (more.1, one.2 ++ more.2)

/-- The actions between taking the locks and releasing them in `Sync`. -/
def syncBody {σ : Type} (env : Env σ) (agents : AgentsMap) (w : σ) (modelName : String) :
    σ × List Action :=
  match env.GetModel w modelName with
  | (_, some _) => (w, [])
  | (none, none) => (w, [])
  | (some model, none) =>
    let loads := syncLoads env agents model w
    let unloads := syncUnloads env agents model.Versions loads.1
    (unloads.1, loads.2 ++ unloads.2)

/-- The reconciler `Server.Sync`: the registry read lock and the per-model store
lock are taken first and released, by the deferred calls, on every return. -/
def Sync {σ : Type} (env : Env σ) (agents : AgentsMap) (w : σ) (modelName : String) :
    σ × List Action :=
  let body := syncBody env agents w modelName
  (body.1, [Action.registryRLock, Action.LockModel modelName, Action.GetModel modelName]
    ++ body.2 ++ [Action.UnlockModel modelName, Action.registryRUnlock])

/-! ## Status ingestor: `AgentEvent` -/

/-- The gRPC status codes the server produces. -/
inductive Code
  | Internal
  deriving DecidableEq, Repr

/-- A gRPC error status. -/
structure Status where
  code : Code
  message : String
  deriving DecidableEq, Repr

/-- The empty acknowledgement `pb.ModelEventResponse`. -/
structure ModelEventResponse where
  deriving DecidableEq, Repr

/-- The `switch message.Event` of `AgentEvent` (lines 229-245): the pair
`(expectedState, desiredState)`.  Both variables start at the zero value, and the
default case assigns only `desiredState`. -/
def eventStates (event : Event) : ModelReplicaState × ModelReplicaState :=
  match event with
  | Event.LOADED => (ModelReplicaState.Loading, ModelReplicaState.Loaded)
  | Event.UNLOADED => (ModelReplicaState.Unloading, ModelReplicaState.Unloaded)
  | Event.LOAD_FAILED => (ModelReplicaState.Loading, ModelReplicaState.LoadFailed)
  | Event.LOAD_FAIL_MEMORY => (ModelReplicaState.Loading, ModelReplicaState.LoadFailed)
  | Event.UNLOAD_FAILED => (ModelReplicaState.Unloading, ModelReplicaState.UnloadFailed)
  | Event.other _ =>
    (ModelReplicaState.ModelReplicaStateUnknown, ModelReplicaState.ModelReplicaStateUnknown)

/-- The store call that `AgentEvent` builds from a status message (line 249). -/
def agentEventCall (message : ModelEventMessage) : UpdateModelStateCall :=
  { modelKey := message.ModelName, version := message.ModelVersion,
    serverKey := message.ServerName, replicaIdx := (message.ReplicaIdx : Int),
    availableMemory := some message.AvailableMemoryBytes,
    expectedState := (eventStates message.Event).1,
    desiredState := (eventStates message.Event).2,
    reason := message.Message }

/-- The unary operation `Server.AgentEvent`. -/
def AgentEvent {σ : Type} (env : Env σ) (w : σ) (message : ModelEventMessage) :
    σ × List Action × Except Status ModelEventResponse :=
  let call := agentEventCall message
  let upd := env.UpdateModelState w call
  let acts := [Action.LockModel message.ModelName, Action.UpdateModelState call upd.2,
    Action.UnlockModel message.ModelName]
  match upd.2 with
  | some err => (upd.1, acts, Except.error { code := Code.Internal, message := err })
  | none => (upd.1, acts, Except.ok {})

/-! ## Scaling ingestor -/

/-- Length of the cooling-off window, in seconds. -/
def modelScalingCoolingOffSeconds : Int := 300

/-- The duration `time.Second`, in nanoseconds. -/
def timeSecond : Int := 1000000000

/-- The errors of the scaling pathway, one constructor per `fmt.Errorf` site, and
`collaborator` for an error handed back by the store or the scheduler. -/
inductive ScalingError
  /-- An error returned by the store or the scheduler. -/
  | collaborator (err : Err)
  /-- "Model %s not found" -/
  | modelNotFound (name : String)
  /-- "Stable model version %s not found" -/
  | stableVersionNotFound (name : String)
  /-- "Model version %s not matching (expected: %d - actual: %d)" -/
  | versionNotMatching (name : String) (expected actual : Nat)
  /-- "Model %s has changed status recently, skip scaling" -/
  | changedStatusRecently (name : String)
  /-- "No autoscaling for model %s" -/
  | noAutoscaling (name : String)
  /-- "Violating min replicas %d / %d for model %s" -/
  | violatingMinReplicas (minReplicas : Nat) (target : Int) (name : String)
  /-- "Violating max replicas %d / %d for model %s" -/
  | violatingMaxReplicas (maxReplicas : Nat) (target : Int) (name : String)
  /-- "event not supported" -/
  | eventNotSupported
  /-- The write through a nil `DeploymentSpec` pointer at line 398. -/
  | nilDeploymentSpec
  deriving DecidableEq, Repr

/-- The range check `checkModelScalingWithinRange`; `none` is the nil error. -/
def checkModelScalingWithinRange (model : Model) (targetNumReplicas : Int) :
    Option ScalingError :=
  let minReplicas := model.GetMinReplicas
  let maxReplicas := model.GetMaxReplicas
  if minReplicas = 0 ∧ maxReplicas = 0 then
    some (ScalingError.noAutoscaling model.GetName)
  else if targetNumReplicas < (minReplicas : Int) ∨ targetNumReplicas < 1 then
    some (ScalingError.violatingMinReplicas minReplicas targetNumReplicas model.GetName)
  else if targetNumReplicas > (maxReplicas : Int) ∧ maxReplicas > 0 then
    some (ScalingError.violatingMaxReplicas maxReplicas targetNumReplicas model.GetName)
  else
    none

/-- The function `calculateDesiredNumReplicas`; the sums are 64-bit `int` sums. -/
def calculateDesiredNumReplicas (model : Model) (trigger : Trigger) (numReplicas : Int) :
    Except ScalingError Int :=
  if trigger = Trigger.SCALE_UP then
    match checkModelScalingWithinRange model (wrapInt (numReplicas + 1)) with
    | some err => Except.error err
    | none => Except.ok (wrapInt (numReplicas + 1))
  else if trigger = Trigger.SCALE_DOWN then
    match checkModelScalingWithinRange model (wrapInt (numReplicas - 1)) with
    | some err => Except.error err
    | none => Except.ok (wrapInt (numReplicas - 1))
  else
    Except.error ScalingError.eventNotSupported

/-- The predicate `isModelStable`, with the reading of the clock as the input `now`
(nanoseconds): the timestamp lies before `now - 300 s`. -/
def isModelStable (now : Int) (modelVersion : ModelVersion) : Bool :=
  decide (modelVersion.Timestamp < now + (-modelScalingCoolingOffSeconds * timeSecond))

/-- The function `createScalingPseudoRequest`, with the clock reading `now`. -/
def createScalingPseudoRequest (now : Int) (message : ModelScalingTriggerMessage)
    (lastAvailableModelVersion : ModelVersion) : Except ScalingError Model :=
  let modelName := message.ModelName
  if lastAvailableModelVersion.GetVersion ≠ message.ModelVersion then
    Except.error (ScalingError.versionNotMatching modelName
      lastAvailableModelVersion.GetVersion message.ModelVersion)
  else
    let modelProtos := lastAvailableModelVersion.GetModel
    let numReplicas : Int := (lastAvailableModelVersion.GetAssignment.length : Int)
    if !isModelStable now lastAvailableModelVersion then
      Except.error (ScalingError.changedStatusRecently modelName)
    else
      match calculateDesiredNumReplicas modelProtos message.Trigger numReplicas with
      | Except.error err => Except.error err
      | Except.ok desiredNumReplicas =>
        match modelProtos.Spec with
        | none => Except.error ScalingError.nilDeploymentSpec
        | some spec =>
          Except.ok { modelProtos with
            Spec := some { spec with Replicas := uint32 desiredNumReplicas } }

/-- The method `Server.updateAndSchedule`. -/
def updateAndSchedule {σ : Type} (env : Env σ) (w : σ) (modelProtos : Model) :
    σ × List Action × Option ScalingError :=
  let modelName := modelProtos.GetName
  let upd := env.UpdateModel w modelProtos
  match upd.2 with
  | some err => (upd.1, [Action.UpdateModel modelProtos (some err)],
      some (ScalingError.collaborator err))
  | none =>
    let sch := env.Schedule upd.1 modelName
    (sch.1, [Action.UpdateModel modelProtos none, Action.Schedule modelName sch.2],
      sch.2.map ScalingError.collaborator)

/-- The method `Server.applyModelScaling`. -/
def applyModelScaling {σ : Type} (env : Env σ) (w : σ) (message : ModelScalingTriggerMessage) :
    σ × List Action × Option ScalingError :=
  let modelName := message.ModelName
  match env.GetModel w modelName with
  | (_, some err) => (w, [Action.GetModel modelName], some (ScalingError.collaborator err))
  | (none, none) => (w, [Action.GetModel modelName], some (ScalingError.modelNotFound modelName))
  | (some model, none) =>
    match model.GetLastAvailableModel with
    | none =>
      (w, [Action.GetModel modelName], some (ScalingError.stableVersionNotFound modelName))
    | some lastAvailableModelVersion =>
      match createScalingPseudoRequest (env.Now w) message lastAvailableModelVersion with
      | Except.error err => (w, [Action.GetModel modelName], some err)
      | Except.ok modelProto =>
        let res := updateAndSchedule env w modelProto
        (res.1, Action.GetModel modelName :: res.2.1, res.2.2)

/-! ## Subscription handler: `Subscribe` -/

/-- The mutable part of `Server`: the registry and the world of the collaborators. -/
structure Server (σ : Type) where
  agents : AgentsMap
  world : σ

/-- The server built by `NewAgentServer`: an empty registry. -/
def NewAgentServer {σ : Type} (w : σ) : Server σ :=
  { agents := [], world := w }

/-- The registry key of a subscribe request. -/
def requestKey (request : AgentSubscribeRequest) : ServerKey :=
  { serverName := request.ServerName, replicaIdx := request.ReplicaIdx }

/-- The method `Server.syncMessage`: both calls run inside the registry write lock,
released by the deferred call on every return. -/
def syncMessage {σ : Type} (env : Env σ) (w : σ) (request : AgentSubscribeRequest) :
    σ × List Action × Option Err :=
  let added := env.AddServerReplica w request
  match added.2 with
  | some err =>
    (added.1, [Action.registryLock, Action.AddServerReplica request (some err),
      Action.registryUnlock], some err)
  | none =>
    let sch := env.ScheduleFailedModels added.1
    (sch.1, [Action.registryLock, Action.AddServerReplica request none,
      Action.ScheduleFailedModels sch.2, Action.registryUnlock], sch.2)

/-- First part of `Subscribe` (lines 283-295): the registry insert and
`syncMessage`.  The error, when there is one, is what `Subscribe` returns at once. -/
def subscribeSetup {σ : Type} (env : Env σ) (srv : Server σ) (request : AgentSubscribeRequest)
    (fin stream : Nat) : Server σ × List Action × Option Err :=
  let key := requestKey request
  let sub : AgentSubscriber := { finished := fin, stream := stream }
  let agents := mapInsert srv.agents key sub
  let synced := syncMessage env srv.world request
  ({ agents := agents, world := synced.1 },
    [Action.registryLock, Action.registryInsert key sub, Action.registryUnlock] ++ synced.2.1,
    synced.2.2)

/-- The loop over `modelsChanged` at lines 314-319. -/
def rescheduleModels {σ : Type} (env : Env σ) : List String → σ → σ × List Action
  | [], w => (w, [])
  | modelName :: rest, w =>
    let sch := env.Schedule w modelName
    let more := rescheduleModels env rest sch.1
    (more.1, Action.Schedule modelName sch.2 :: more.2)

/-- The `ctx.Done()` case of the wait loop of `Subscribe` (lines 304-320); it
returns the nil error. -/
def subscribeCtxDone {σ : Type} (env : Env σ) (srv : Server σ) (request : AgentSubscribeRequest) :
    Server σ × List Action × Option Err :=
  let key := requestKey request
  let agents := mapDelete srv.agents key
  let removed := env.RemoveServerReplica srv.world request.ServerName (request.ReplicaIdx : Int)
  let modelsChanged := removed.2.1
  let resched := rescheduleModels env modelsChanged removed.1
  ({ agents := agents, world := resched.1 },
    [Action.registryLock, Action.registryDelete key, Action.registryUnlock,
      Action.RemoveServerReplica request.ServerName (request.ReplicaIdx : Int)
        modelsChanged removed.2.2] ++ resched.2,
    none)

/-- What ends the wait of a subscription: the close signal or the cancellation of
the stream context. -/
inductive WaitEvent
  | finished
  | ctxDone
  deriving DecidableEq, Repr

/-- The `select` of `Subscribe` (lines 299-322) for the event that fires. -/
def subscribeWait {σ : Type} (env : Env σ) (srv : Server σ) (request : AgentSubscribeRequest)
    (ev : WaitEvent) : Server σ × List Action × Option Err :=
  match ev with
  | WaitEvent.finished => (srv, [], none)
  | WaitEvent.ctxDone => subscribeCtxDone env srv request

/-- The handler `Server.Subscribe` run without interleaving: setup, then the wait
ended by `ev`. -/
def Subscribe {σ : Type} (env : Env σ) (srv : Server σ) (request : AgentSubscribeRequest)
    (fin stream : Nat) (ev : WaitEvent) : Server σ × List Action × Option Err :=
  let setup := subscribeSetup env srv request fin stream
  match setup.2.2 with
  | some err => (setup.1, setup.2.1, some err)
  | none =>
    let waited := subscribeWait env setup.1 request ev
    (waited.1, setup.2.1 ++ waited.2.1, waited.2.2)

/-! ## Sessions sharing one replica key -/

/-- A step of the sessions that use one replica key: a new session calls
`Subscribe`, or the stream context of session `session` is cancelled. -/
inductive SessionEvent
  | subscribe
  | disconnect (session : Nat)
  deriving DecidableEq, Repr

/-- The server together with the bookkeeping of its sessions.  Sessions are numbered
in the order of their `Subscribe` calls, and session `n` owns stream `n`.
`waiting` lists the sessions blocked in the wait loop, the most recent first;
`failed` those whose setup returned an error; `gone` those that disconnected. -/
structure Sessions (σ : Type) where
  server : Server σ
  next : Nat
  waiting : List Nat
  failed : List Nat
  gone : List Nat

/-- One step of the sessions of `request`.  A `disconnect` of a session that is not
in the wait loop is not enabled and leaves the state as it is. -/
def sessionStep {σ : Type} (env : Env σ) (request : AgentSubscribeRequest)
    (st : Sessions σ) (ev : SessionEvent) : Sessions σ :=
  match ev with
  | SessionEvent.subscribe =>
    let setup := subscribeSetup env st.server request st.next st.next
    match setup.2.2 with
    | some _ => { st with server := setup.1, next := st.next + 1, failed := st.next :: st.failed }
    | none => { st with server := setup.1, next := st.next + 1, waiting := st.next :: st.waiting }
  | SessionEvent.disconnect session =>
    if session ∈ st.waiting then
      { st with server := (subscribeCtxDone env st.server request).1,
                waiting := st.waiting.erase session,
                gone := session :: st.gone }
    else st

/-- A finite interleaving of session steps. -/
def runSessions {σ : Type} (env : Env σ) (request : AgentSubscribeRequest)
    (st : Sessions σ) (evs : List SessionEvent) : Sessions σ :=
  evs.foldl (sessionStep env request) st

/-- The sessions of a server on which no session of the key has subscribed yet. -/
def startSessions {σ : Type} (srv : Server σ) : Sessions σ :=
  { server := srv, next := 0, waiting := [], failed := [], gone := [] }

/-! ## Observations on traces and the reconcile plan -/

/-- The `stream.Send` calls of a trace, in order, each with its result. -/
def sendsOf (t : List Action) : List (Nat × ModelOperationMessage × Option Err) :=
  t.filterMap (fun a =>
    match a with
    | Action.Send stream msg err => some (stream, msg, err)
    | _ => none)

/-- The `store.UpdateModelState` calls of a trace, in order. -/
def updatesOf (t : List Action) : List UpdateModelStateCall :=
  t.filterMap (fun a =>
    match a with
    | Action.UpdateModelState call _ => some call
    | _ => none)

/-- The `scheduler.Schedule` calls of a trace, in order. -/
def schedulesOf (t : List Action) : List String :=
  t.filterMap (fun a =>
    match a with
    | Action.Schedule name _ => some name
    | _ => none)

/-- The `store.UpdateModel` calls of a trace, in order. -/
def updateModelsOf (t : List Action) : List Model :=
  t.filterMap (fun a =>
    match a with
    | Action.UpdateModel model _ => some model
    | _ => none)

/-- The `store.RemoveServerReplica` calls of a trace, in order. -/
def removalsOf (t : List Action) : List (String × Int) :=
  t.filterMap (fun a =>
    match a with
    | Action.RemoveServerReplica serverName replicaIdx _ _ => some (serverName, replicaIdx)
    | _ => none)

/-- Target stream and message of a recorded send. -/
def sendTarget (s : Nat × ModelOperationMessage × Option Err) : Nat × ModelOperationMessage :=
  (s.1, s.2.1)

/-- One planned command of a reconcile: the stream it goes to, the message, and the
store transition requested once the send has succeeded. -/
structure PlanItem where
  stream : Nat
  msg : ModelOperationMessage
  call : UpdateModelStateCall

/-- The command planned for replica `replicaIdx` of version `mv`: there is one exactly
when a subscriber is registered under `(mv.Server, uint32 replicaIdx)`. -/
def planReplica (agents : AgentsMap) (op : Operation) (expected desired : ModelReplicaState)
    (mv : ModelVersion) (replicaIdx : Int) : Option PlanItem :=
  (mapLookup agents { serverName := mv.Server, replicaIdx := uint32 replicaIdx }).map
    (fun sub =>
      { stream := sub.stream,
        msg := { Operation := op,
                 ModelVersion := { Model := mv.GetModel, Version := mv.GetVersion } },
        call := { modelKey := mv.Key, version := mv.GetVersion, serverKey := mv.Server,
                  replicaIdx := replicaIdx, availableMemory := none,
                  expectedState := expected, desiredState := desired, reason := "" } })

/-- The commands planned for the replicas `rs` of version `mv`. -/
def planReplicas (agents : AgentsMap) (op : Operation) (expected desired : ModelReplicaState)
    (mv : ModelVersion) (rs : List Int) : List PlanItem :=
  rs.filterMap (planReplica agents op expected desired mv)

/-- The load commands of a reconcile, in the words of the specification: one for
each `LoadRequested` replica of the latest version that has a subscriber. -/
def loadPlan (agents : AgentsMap) (model : ModelSnapshot) : List PlanItem :=
  match model.GetLatest with
  | none => []
  | some latest =>
    planReplicas agents Operation.LOAD_MODEL ModelReplicaState.LoadRequested
      ModelReplicaState.Loading latest
      (latest.GetReplicaForState ModelReplicaState.LoadRequested)

/-- The unload commands of the versions `versions`: one for each `UnloadRequested`
replica of each version that has a subscriber. -/
def unloadPlanOf (agents : AgentsMap) (versions : List ModelVersion) : List PlanItem :=
  versions.flatMap (fun mv =>
    planReplicas agents Operation.UNLOAD_MODEL ModelReplicaState.UnloadRequested
      ModelReplicaState.Unloading mv
      (mv.GetReplicaForState ModelReplicaState.UnloadRequested))

/-- The unload commands of a reconcile, over all versions of the model. -/
def unloadPlan (agents : AgentsMap) (model : ModelSnapshot) : List PlanItem :=
  unloadPlanOf agents model.Versions

/-- A trace realises a plan: its sends are the planned ones, in order and whatever
their results, and its store transitions are those of the planned commands whose
send returned no error. -/
def Realises (plan : List PlanItem) (t : List Action) : Prop :=
  (sendsOf t).map sendTarget = plan.map (fun p => (p.stream, p.msg)) ∧
  updatesOf t =
    ((plan.zip (sendsOf t)).filter (fun x => x.2.2.2.isNone)).map (fun x => x.1.call)

/-! ## Concrete stores and scenarios -/

/-- A world without state in which every collaborator call succeeds: the store
answers `GetModel` from `models`, the clock reads `now`, and `RemoveServerReplica`
reports `removed`. -/
def calmEnv (models : String → Option ModelSnapshot) (now : Int) (removed : List String) :
    Env Unit :=
  { GetModel := fun _ name => (models name, none)
    UpdateModelState := fun w _ => (w, none)
    UpdateModel := fun w _ => (w, none)
    AddServerReplica := fun w _ => (w, none)
    RemoveServerReplica := fun w _ _ => (w, removed, none)
    Schedule := fun w _ => (w, none)
    ScheduleFailedModels := fun w => (w, none)
    Send := fun w _ _ => (w, none)
    Now := fun _ => now }

/-- The model proto of model `name` with the given replica bounds. -/
def protoOf (name : String) (replicas : Nat) (minReplicas maxReplicas : Option Nat) : Model :=
  { Meta := some { Name := name },
    Spec := some { Replicas := replicas, MinReplicas := minReplicas,
                   MaxReplicas := maxReplicas } }

/-- Version 3 of `m1` on `serverS`, with replica 1 in state `LoadRequested`. -/
def m1v3 : ModelVersion :=
  { GetVersion := 3, Server := "serverS", Key := "m1",
    GetModel := protoOf "m1" 1 none none,
    GetReplicaForState := fun st =>
      if st = ModelReplicaState.LoadRequested then [1] else [],
    GetAssignment := [], Timestamp := 0 }

/-- Version 2 of `m1` on `serverS`, with replica 0 in state `UnloadRequested`. -/
def m1v2 : ModelVersion :=
  { GetVersion := 2, Server := "serverS", Key := "m1",
    GetModel := protoOf "m1" 1 none none,
    GetReplicaForState := fun st =>
      if st = ModelReplicaState.UnloadRequested then [0] else [],
    GetAssignment := [0], Timestamp := 0 }

/-- The store of the rollout case: `m1` with versions 2 and 3, the latest being 3. -/
def rolloutModels (name : String) : Option ModelSnapshot :=
  if name = "m1" then
    some { Versions := [m1v2, m1v3], GetLatest := some m1v3, GetLastAvailableModel := some m1v2 }
  else none

/-- The registry of the rollout case: replicas 0 and 1 of `serverS` are subscribed,
on streams 10 and 11. -/
def rolloutAgents : AgentsMap :=
  [({ serverName := "serverS", replicaIdx := 0 }, { finished := 10, stream := 10 }),
   ({ serverName := "serverS", replicaIdx := 1 }, { finished := 11, stream := 11 })]

/-- A world in which the sends on the streams in `broken` fail and the store refuses
the transitions of the replica indexes in `refused`; everything else succeeds. -/
def faultyEnv (models : String → Option ModelSnapshot) (broken : List Nat)
    (refused : List Int) : Env Unit :=
  { GetModel := fun _ name => (models name, none)
    UpdateModelState := fun w call =>
      (w, if call.replicaIdx ∈ refused then some "transition refused" else none)
    UpdateModel := fun w _ => (w, none)
    AddServerReplica := fun w _ => (w, none)
    RemoveServerReplica := fun w _ _ => (w, [], none)
    Schedule := fun w _ => (w, none)
    ScheduleFailedModels := fun w => (w, none)
    Send := fun w stream _ => (w, if stream ∈ broken then some "send failed" else none)
    Now := fun _ => 0 }

/-- Identity of one model replica in the store. -/
structure ReplicaId where
  modelKey : String
  version : Nat
  serverKey : String
  replicaIdx : Int
  deriving DecidableEq, Repr

/-- The replica that an `UpdateModelState` call addresses. -/
def UpdateModelStateCall.target (call : UpdateModelStateCall) : ReplicaId :=
  { modelKey := call.modelKey, version := call.version, serverKey := call.serverKey,
    replicaIdx := call.replicaIdx }

/-- Modelled from the spec: the contents of the model store as far as replica states go
(the store itself is not part of the agent package). -/
abbrev ReplicaStates := ReplicaId → ModelReplicaState

/-- Modelled from the spec: `store.UpdateModelState`, of which the specification says
that it rejects the update if the current state differs from the expected one, and
otherwise applies it. -/
def storeUpdateModelState (states : ReplicaStates) (call : UpdateModelStateCall) :
    ReplicaStates × Option Err :=
  if states call.target = call.expectedState then
    (fun id => if id = call.target then call.desiredState else states id, none)
  else
    (states, some "unexpected replica state")

/-- The collaborators over the modelled replica store; the other calls succeed. -/
def storeEnv : Env ReplicaStates :=
  { GetModel := fun _ _ => (none, none)
    UpdateModelState := storeUpdateModelState
    UpdateModel := fun w _ => (w, none)
    AddServerReplica := fun w _ => (w, none)
    RemoveServerReplica := fun w _ _ => (w, [], none)
    Schedule := fun w _ => (w, none)
    ScheduleFailedModels := fun w => (w, none)
    Send := fun w _ _ => (w, none)
    Now := fun _ => 0 }

/-- A store in which every replica is in state `Loading`. -/
def allLoading : ReplicaStates := fun _ => ModelReplicaState.Loading

/-- The status message of the load cycle: LOADED for `m1` version 3 at `(serverS, 0)`. -/
def loadedMessage : ModelEventMessage :=
  { ServerName := "serverS", ReplicaIdx := 0, ModelName := "m1", ModelVersion := 3,
    Event := Event.LOADED, Message := "", AvailableMemoryBytes := 1024 }

/-- Version 5 of `m2` on `serverT`, whose state changed at second 990. -/
def m2v5 : ModelVersion :=
  { GetVersion := 5, Server := "serverT", Key := "m2",
    GetModel := protoOf "m2" 1 (some 1) (some 4),
    GetReplicaForState := fun _ => [],
    GetAssignment := [0], Timestamp := 990 * timeSecond }

/-- The store of the cooldown case: `m2` with last-available version 5. -/
def coolingModels (name : String) : Option ModelSnapshot :=
  if name = "m2" then
    some { Versions := [m2v5], GetLatest := some m2v5, GetLastAvailableModel := some m2v5 }
  else none

/-- A SCALE_UP request for version `version` of `m2`, from replica 0 of `serverT`. -/
def scaleUpM2 (version : Nat) : ModelScalingTriggerMessage :=
  { ServerName := "serverT", ReplicaIdx := 0, ModelName := "m2", ModelVersion := version,
    Trigger := Trigger.SCALE_UP }

/-- Version 2 of `m3` on `serverW`: two replicas assigned, bounds 1 and 4, last state
change at second 0. -/
def m3v2 : ModelVersion :=
  { GetVersion := 2, Server := "serverW", Key := "m3",
    GetModel := protoOf "m3" 2 (some 1) (some 4),
    GetReplicaForState := fun _ => [],
    GetAssignment := [0, 1], Timestamp := 0 }

/-- The store of the scaling case: `m3` with last-available version 2. -/
def scalingModels (name : String) : Option ModelSnapshot :=
  if name = "m3" then
    some { Versions := [m3v2], GetLatest := some m3v2, GetLastAvailableModel := some m3v2 }
  else none

/-- A SCALE_UP request for version 2 of `m3`. -/
def scaleUpM3 : ModelScalingTriggerMessage :=
  { ServerName := "serverW", ReplicaIdx := 0, ModelName := "m3", ModelVersion := 2,
    Trigger := Trigger.SCALE_UP }

/-- A scaling request passes all checks of `applyModelScaling`: the model is found, it
has the last-available version `mv`, whose number is the one of the request and which is
stable, and the target `t` is computed within the bounds. -/
def PassesChecks {σ : Type} (env : Env σ) (w : σ) (message : ModelScalingTriggerMessage)
    (model : ModelSnapshot) (mv : ModelVersion) (t : Int) : Prop :=
  env.GetModel w message.ModelName = (some model, none) ∧
  model.GetLastAvailableModel = some mv ∧
  mv.GetVersion = message.ModelVersion ∧
  isModelStable (env.Now w) mv = true ∧
  calculateDesiredNumReplicas mv.GetModel message.Trigger (mv.GetAssignment.length : Int)
    = Except.ok t

/-- The assignment of the 4294967295 replicas with indexes 0 to 4294967294. -/
def crowdedAssignment : List Int := List.map Int.ofNat (List.range 4294967295)

/-- A version of `m6` with 4294967295 replicas assigned, a lower bound of 1 and no upper
bound, last changed at second 0. -/
def crowdedVersion : ModelVersion :=
  { GetVersion := 1, Server := "serverX", Key := "m6",
    GetModel := protoOf "m6" 1 (some 1) none,
    GetReplicaForState := fun _ => [],
    GetAssignment := crowdedAssignment, Timestamp := 0 }

/-- A SCALE_UP request for version 1 of `m6`. -/
def scaleUpM6 : ModelScalingTriggerMessage :=
  { ServerName := "serverX", ReplicaIdx := 0, ModelName := "m6", ModelVersion := 1,
    Trigger := Trigger.SCALE_UP }

/-- The store holding `m6` with the crowded version as its last-available version. -/
def crowdedModels (name : String) : Option ModelSnapshot :=
  if name = "m6" then
    some { Versions := [crowdedVersion], GetLatest := some crowdedVersion,
           GetLastAvailableModel := some crowdedVersion }
  else none

/-- The subscribe request of replica 0 of `serverU`. -/
def requestU : AgentSubscribeRequest := { ServerName := "serverU", ReplicaIdx := 0 }

/-- A server whose registry holds the subscriber of `(serverU, 0)`. -/
def serverWithU : Server Unit :=
  { agents := [({ serverName := "serverU", replicaIdx := 0 }, { finished := 7, stream := 7 })],
    world := () }

/-- A world in which `RemoveServerReplica` reports `m4` and `m5` and every `Schedule`
call fails. -/
def failingScheduleEnv : Env Unit :=
  { GetModel := fun _ _ => (none, none)
    UpdateModelState := fun w _ => (w, none)
    UpdateModel := fun w _ => (w, none)
    AddServerReplica := fun w _ => (w, none)
    RemoveServerReplica := fun w _ _ => (w, ["m4", "m5"], none)
    Schedule := fun w _ => (w, some "no capacity")
    ScheduleFailedModels := fun w => (w, none)
    Send := fun w _ _ => (w, none)
    Now := fun _ => 0 }

/-- The subscribe request of replica 1 of `serverV`. -/
def requestV : AgentSubscribeRequest := { ServerName := "serverV", ReplicaIdx := 1 }

/-- A world that counts the `AddServerReplica` calls and in which only the first of
them succeeds; every other collaborator call succeeds. -/
def flakyEnv : Env Nat :=
  { GetModel := fun _ _ => (none, none)
    UpdateModelState := fun w _ => (w, none)
    UpdateModel := fun w _ => (w, none)
    AddServerReplica := fun w _ => (w + 1, if w = 0 then none else some "replica refused")
    RemoveServerReplica := fun w _ _ => (w, [], none)
    Schedule := fun w _ => (w, none)
    ScheduleFailedModels := fun w => (w, none)
    Send := fun w _ _ => (w, none)
    Now := fun _ => 0 }

/-- The invariant of the sessions of one replica key: the registry holds at most one
entry under the key; the sessions in the wait loop and the disconnected ones have been
numbered already; the waiting ones are listed from the most recent to the oldest; and an
entry under the key belongs to the most recently subscribed session, which has not
disconnected and is either waiting or ended by a failed setup. -/
def SessionsInv {σ : Type} (key : ServerKey) (st : Sessions σ) : Prop :=
  (entriesFor st.server.agents key).length ≤ 1 ∧
  (∀ s ∈ st.waiting, s < st.next) ∧
  (∀ s ∈ st.gone, s < st.next) ∧
  st.waiting.Pairwise (fun a b => b < a) ∧
  (∀ sub, mapLookup st.server.agents key = some sub →
    sub.stream + 1 = st.next ∧ sub.stream ∉ st.gone ∧
    (sub.stream ∈ st.waiting ∨ sub.stream ∈ st.failed))

/-! ## The registry lock in a trace -/

/-- Whether the action takes or releases the registry lock `Server.mutext`. -/
def isRegistryLockOp (a : Action) : Bool :=
  match a with
  | Action.registryRLock => true
  | Action.registryRUnlock => true
  | Action.registryLock => true
  | Action.registryUnlock => true
  | _ => false

/-- Whether the registry lock is held after action `a`, given whether it was before. -/
def heldAfter (held : Bool) (a : Action) : Bool :=
  match a with
  | Action.registryRLock => true
  | Action.registryLock => true
  | Action.registryRUnlock => false
  | Action.registryUnlock => false
  | _ => held

/-- Whether the registry lock is held at the end of a trace. -/
def heldAtEnd (held : Bool) (t : List Action) : Bool :=
  t.foldl heldAfter held

/-- The actions of a trace that are performed while the registry lock is held, the
lock operations themselves left out; `held` tells whether it is held at the start. -/
def underLock : Bool → List Action → List Action
  | _, [] => []
  | held, a :: rest =>
    if isRegistryLockOp a then underLock (heldAfter held a) rest
    else if held then a :: underLock held rest
    else underLock held rest

/-- A network send or one of the store calls `LockModel`, `GetModel`,
`UpdateModelState`, `AddServerReplica`, `RemoveServerReplica`. -/
def isSendOrStoreCall (a : Action) : Bool :=
  match a with
  | Action.Send _ _ _ => true
  | Action.LockModel _ => true
  | Action.GetModel _ => true
  | Action.UpdateModelState _ _ => true
  | Action.AddServerReplica _ _ => true
  | Action.RemoveServerReplica _ _ _ _ => true
  | _ => false

/-- A read or a write of the `agents` map. -/
def isMapAccess (a : Action) : Bool :=
  match a with
  | Action.registryRead _ _ => true
  | Action.registryInsert _ _ => true
  | Action.registryDelete _ => true
  | _ => false

/-! # Verified properties -/

/-! ## Shared lemmas on the reconciler -/

theorem sendsOf_append (s t : List Action) : sendsOf (s ++ t) = sendsOf s ++ sendsOf t := by
  simp [sendsOf, List.filterMap_append]

theorem updatesOf_append (s t : List Action) :
    updatesOf (s ++ t) = updatesOf s ++ updatesOf t := by
  simp [updatesOf, List.filterMap_append]

theorem mem_sendsOf (t : List Action) (stream : Nat) (msg : ModelOperationMessage)
    (err : Option Err) : (stream, msg, err) ∈ sendsOf t ↔ Action.Send stream msg err ∈ t := by
  unfold sendsOf
  rw [List.mem_filterMap]
  constructor
  · rintro ⟨a, ha, h⟩
    cases a <;> simp at h
    obtain ⟨h1, h2, h3⟩ := h
    subst h1 h2 h3
    exact ha
  · intro h
    exact ⟨_, h, rfl⟩

theorem Realises.nil : Realises [] [] := by
  simp [Realises, sendsOf, updatesOf]

theorem Realises.length {plan : List PlanItem} {t : List Action} (h : Realises plan t) :
    plan.length = (sendsOf t).length := by
  have := congrArg List.length h.1
  simpa using this.symm

theorem Realises.append {p1 p2 : List PlanItem} {t1 t2 : List Action}
    (h1 : Realises p1 t1) (h2 : Realises p2 t2) : Realises (p1 ++ p2) (t1 ++ t2) := by
  refine ⟨?_, ?_⟩
  · rw [sendsOf_append, List.map_append, List.map_append, h1.1, h2.1]
  · rw [sendsOf_append, updatesOf_append, List.zip_append h1.length, List.filter_append,
      List.map_append, h1.2, h2.2]

/-- One pass of the loop body realises the command planned for that replica. -/
theorem syncReplica_realises {σ : Type} (env : Env σ) (agents : AgentsMap) (op : Operation)
    (expected desired : ModelReplicaState) (mv : ModelVersion) (r : Int) (w : σ) :
    Realises (planReplica agents op expected desired mv r).toList
      (syncReplica env agents op expected desired mv r w).2 := by
  cases hl : mapLookup agents { serverName := mv.Server, replicaIdx := uint32 r } with
  | none => simp [syncReplica, planReplica, hl, Realises, sendsOf, updatesOf]
  | some sub =>
    cases hs : (env.Send w sub.stream
      { Operation := op, ModelVersion := { Model := mv.GetModel, Version := mv.GetVersion } }).2 with
    | none => simp [syncReplica, planReplica, hl, hs, Realises, sendsOf, updatesOf, sendTarget]
    | some e => simp [syncReplica, planReplica, hl, hs, Realises, sendsOf, updatesOf, sendTarget]

theorem syncReplicas_realises {σ : Type} (env : Env σ) (agents : AgentsMap) (op : Operation)
    (expected desired : ModelReplicaState) (mv : ModelVersion) (rs : List Int) (w : σ) :
    Realises (planReplicas agents op expected desired mv rs)
      (syncReplicas env agents op expected desired mv rs w).2 := by
  induction rs generalizing w with
  | nil => simpa [planReplicas, syncReplicas] using Realises.nil
  | cons r rs ih =>
    have h1 := syncReplica_realises env agents op expected desired mv r w
    have h2 := ih (syncReplica env agents op expected desired mv r w).1
    have h := Realises.append h1 h2
    unfold planReplicas at h ⊢
    simp only [syncReplicas]
    cases hp : planReplica agents op expected desired mv r with
    | none => simpa [hp, List.filterMap_cons] using h
    | some item => simpa [hp, List.filterMap_cons] using h

theorem syncUnloads_realises {σ : Type} (env : Env σ) (agents : AgentsMap)
    (versions : List ModelVersion) (w : σ) :
    Realises (unloadPlanOf agents versions) (syncUnloads env agents versions w).2 := by
  induction versions generalizing w with
  | nil => simpa [unloadPlanOf, syncUnloads] using Realises.nil
  | cons mv rest ih =>
    simp only [syncUnloads, unloadPlanOf, List.flatMap_cons]
    exact Realises.append (syncReplicas_realises _ _ _ _ _ _ _ _) (ih _)

theorem syncLoads_realises {σ : Type} (env : Env σ) (agents : AgentsMap)
    (model : ModelSnapshot) (w : σ) :
    Realises (loadPlan agents model) (syncLoads env agents model w).2 := by
  unfold syncLoads loadPlan
  cases model.GetLatest with
  | none => exact Realises.nil
  | some latest => exact syncReplicas_realises _ _ _ _ _ _ _ _

/-- The trace of `Sync` on a model found in the store. -/
theorem Sync_trace {σ : Type} (env : Env σ) (agents : AgentsMap) (w : σ) (modelName : String)
    (model : ModelSnapshot) (hget : env.GetModel w modelName = (some model, none)) :
    (Sync env agents w modelName).2 =
      [Action.registryRLock, Action.LockModel modelName, Action.GetModel modelName]
        ++ ((syncLoads env agents model w).2
          ++ (syncUnloads env agents model.Versions (syncLoads env agents model w).1).2)
        ++ [Action.UnlockModel modelName, Action.registryRUnlock] := by
  simp [Sync, syncBody, hget]

/-- The trace of `Sync` realises the load plan followed by the unload plan. -/
theorem Sync_realises {σ : Type} (env : Env σ) (agents : AgentsMap) (w : σ) (modelName : String)
    (model : ModelSnapshot) (hget : env.GetModel w modelName = (some model, none)) :
    Realises (loadPlan agents model ++ unloadPlan agents model)
      (Sync env agents w modelName).2 := by
  rw [Sync_trace env agents w modelName model hget]
  have hpre : Realises []
      [Action.registryRLock, Action.LockModel modelName, Action.GetModel modelName] := by
    simp [Realises, sendsOf, updatesOf]
  have hpost : Realises [] [Action.UnlockModel modelName, Action.registryRUnlock] := by
    simp [Realises, sendsOf, updatesOf]
  have hmid := Realises.append (syncLoads_realises env agents model w)
    (syncUnloads_realises env agents model.Versions (syncLoads env agents model w).1)
  have h := Realises.append (Realises.append hpre hmid) hpost
  simpa [unloadPlan] using h

/-- When the model is not found, `Sync` sends nothing and requests no transition. -/
theorem Sync_not_found {σ : Type} (env : Env σ) (agents : AgentsMap) (w : σ)
    (modelName : String) (h : ∀ model, env.GetModel w modelName ≠ (some model, none)) :
    sendsOf (Sync env agents w modelName).2 = [] ∧
      updatesOf (Sync env agents w modelName).2 = [] := by
  unfold Sync syncBody
  rcases hg : env.GetModel w modelName with ⟨m, e⟩
  cases e with
  | some e => simp [sendsOf, updatesOf]
  | none =>
    cases m with
    | none => simp [sendsOf, updatesOf]
    | some model => exact absurd hg (h model)

/-! ## Load-version restriction -/

theorem mem_planReplicas {agents : AgentsMap} {op : Operation}
    {expected desired : ModelReplicaState} {mv : ModelVersion} {rs : List Int} {item : PlanItem}
    (h : item ∈ planReplicas agents op expected desired mv rs) :
    ∃ r ∈ rs, ∃ sub,
      mapLookup agents { serverName := mv.Server, replicaIdx := uint32 r } = some sub ∧
      item.stream = sub.stream ∧
      item.msg = { Operation := op,
                   ModelVersion := { Model := mv.GetModel, Version := mv.GetVersion } } ∧
      item.call = { modelKey := mv.Key, version := mv.GetVersion, serverKey := mv.Server,
                    replicaIdx := r, availableMemory := none,
                    expectedState := expected, desiredState := desired, reason := "" } := by
  unfold planReplicas at h
  rw [List.mem_filterMap] at h
  obtain ⟨r, hr, hitem⟩ := h
  unfold planReplica at hitem
  cases hl : mapLookup agents { serverName := mv.Server, replicaIdx := uint32 r } with
  | none => simp [hl] at hitem
  | some sub =>
    simp only [hl, Option.map_some', Option.some.injEq] at hitem
    subst hitem
    exact ⟨r, hr, sub, hl, rfl, rfl, rfl⟩

theorem mem_unloadPlanOf {agents : AgentsMap} {versions : List ModelVersion} {item : PlanItem}
    (h : item ∈ unloadPlanOf agents versions) :
    ∃ mv ∈ versions,
      item ∈ planReplicas agents Operation.UNLOAD_MODEL ModelReplicaState.UnloadRequested
        ModelReplicaState.Unloading mv
        (mv.GetReplicaForState ModelReplicaState.UnloadRequested) := by
  unfold unloadPlanOf at h
  rw [List.mem_flatMap] at h
  exact h

theorem loadPlan_operation {agents : AgentsMap} {model : ModelSnapshot} {item : PlanItem}
    (h : item ∈ loadPlan agents model) : item.msg.Operation = Operation.LOAD_MODEL := by
  unfold loadPlan at h
  cases hl : model.GetLatest with
  | none => simp [hl] at h
  | some latest =>
    simp only [hl] at h
    obtain ⟨_, _, _, _, _, hmsg, _⟩ := mem_planReplicas h
    rw [hmsg]

theorem unloadPlan_operation {agents : AgentsMap} {model : ModelSnapshot} {item : PlanItem}
    (h : item ∈ unloadPlan agents model) : item.msg.Operation = Operation.UNLOAD_MODEL := by
  obtain ⟨mv, _, hmv⟩ := mem_unloadPlanOf h
  obtain ⟨_, _, _, _, _, hmsg, _⟩ := mem_planReplicas hmv
  rw [hmsg]

theorem uint32_of_inRange (r : Int) (h0 : 0 ≤ r) (h1 : r < 4294967296) :
    ((uint32 r : Nat) : Int) = r := by
  unfold uint32
  rw [Int.emod_eq_of_lt h0 h1, Int.toNat_of_nonneg h0]

/-- A send recorded by `Sync` comes from the load plan or the unload plan of the
model that `GetModel` returned. -/
theorem Sync_send_planned {σ : Type} (env : Env σ) (agents : AgentsMap) (w : σ)
    (modelName : String) (stream : Nat) (msg : ModelOperationMessage) (err : Option Err)
    (h : Action.Send stream msg err ∈ (Sync env agents w modelName).2) :
    ∃ model, env.GetModel w modelName = (some model, none) ∧
      ∃ item ∈ loadPlan agents model ++ unloadPlan agents model,
        item.stream = stream ∧ item.msg = msg := by
  by_cases hfound : ∃ model, env.GetModel w modelName = (some model, none)
  · obtain ⟨model, hget⟩ := hfound
    refine ⟨model, hget, ?_⟩
    have hr := (Sync_realises env agents w modelName model hget).1
    have hmem : sendTarget (stream, msg, err) ∈
        (sendsOf (Sync env agents w modelName).2).map sendTarget :=
      List.mem_map_of_mem _ ((mem_sendsOf _ _ _ _).2 h)
    rw [hr, List.mem_map] at hmem
    obtain ⟨item, hitem, heq⟩ := hmem
    simp only [sendTarget, Prod.mk.injEq] at heq
    exact ⟨item, hitem, heq.1, heq.2⟩
  · have hnone := (Sync_not_found env agents w modelName
      (fun model hm => hfound ⟨model, hm⟩)).1
    have := (mem_sendsOf _ _ _ _).2 h
    rw [hnone] at this
    simp at this

/-- C2. Every LOAD_MODEL message that one `Sync` call sends comes from a model found in
the store that has a latest version; it carries that version's number and model, and
is sent on the stream of the subscriber registered under
`(latest.Server, uint32 replicaIdx)` for a `replicaIdx` that the latest version reports
in state `LoadRequested` (the key index is `replicaIdx` itself whenever that fits in
32 bits).  So no LOAD_MODEL is sent for another version, nor without a latest version. -/
theorem Sync_load_only_latest {σ : Type} (env : Env σ) (agents : AgentsMap) (w : σ)
    (modelName : String) (stream : Nat) (msg : ModelOperationMessage) (err : Option Err)
    (hsent : Action.Send stream msg err ∈ (Sync env agents w modelName).2)
    (hload : msg.Operation = Operation.LOAD_MODEL) :
    ∃ model latest, env.GetModel w modelName = (some model, none) ∧
      model.GetLatest = some latest ∧
      msg.ModelVersion.Version = latest.GetVersion ∧
      msg.ModelVersion.Model = latest.GetModel ∧
      ∃ replicaIdx ∈ latest.GetReplicaForState ModelReplicaState.LoadRequested,
        ∃ sub, mapLookup agents
            { serverName := latest.Server, replicaIdx := uint32 replicaIdx } = some sub ∧
          sub.stream = stream ∧
          (0 ≤ replicaIdx → replicaIdx < 4294967296 →
            ((uint32 replicaIdx : Nat) : Int) = replicaIdx) := by
  obtain ⟨model, hget, item, hitem, hstream, hmsg⟩ :=
    Sync_send_planned env agents w modelName stream msg err hsent
  rw [List.mem_append] at hitem
  rcases hitem with hl | hu
  · unfold loadPlan at hl
    cases hlat : model.GetLatest with
    | none => simp [hlat] at hl
    | some latest =>
      simp only [hlat] at hl
      obtain ⟨r, hr, sub, hsub, hs, hm, _⟩ := mem_planReplicas hl
      refine ⟨model, latest, hget, hlat, ?_, ?_, r, hr, sub, hsub, ?_, uint32_of_inRange r⟩
      · rw [← hmsg, hm]
      · rw [← hmsg, hm]
      · rw [← hs, hstream]
  · have := unloadPlan_operation hu
    rw [hmsg, hload] at this
    cases this

/-- C2 at the rollout store: the LOAD_MODEL for version 3 goes to replica 1 of `serverS`. -/
theorem Sync_load_only_latest_witness :
    ∃ model latest, (calmEnv rolloutModels 0 []).GetModel () "m1" = (some model, none) ∧
      model.GetLatest = some latest ∧
      (3 : Nat) = latest.GetVersion ∧
      protoOf "m1" 1 none none = latest.GetModel ∧
      ∃ replicaIdx ∈ latest.GetReplicaForState ModelReplicaState.LoadRequested,
        ∃ sub, mapLookup rolloutAgents
            { serverName := latest.Server, replicaIdx := uint32 replicaIdx } = some sub ∧
          sub.stream = 11 ∧
          (0 ≤ replicaIdx → replicaIdx < 4294967296 →
            ((uint32 replicaIdx : Nat) : Int) = replicaIdx) :=
  Sync_load_only_latest (calmEnv rolloutModels 0 []) rolloutAgents () "m1" 11
    { Operation := Operation.LOAD_MODEL,
      ModelVersion := { Model := protoOf "m1" 1 none none, Version := 3 } } none
    (by decide) rfl

/-! ## Ordering of loads and unloads -/

/-- C3. In the sends of one `Sync` call no UNLOAD_MODEL comes before a LOAD_MODEL, that
is, every LOAD_MODEL precedes every UNLOAD_MODEL; and at the rollout store (version 2
`UnloadRequested` at `(serverS, 0)`, latest version 3 `LoadRequested` at `(serverS, 1)`,
both subscribed, sends succeeding) the sends are exactly LOAD_MODEL(m1, 3) on the stream
of `(serverS, 1)` followed by UNLOAD_MODEL(m1, 2) on the stream of `(serverS, 0)`. -/
theorem Sync_loads_before_unloads :
    (∀ (σ : Type) (env : Env σ) (agents : AgentsMap) (w : σ) (modelName : String),
      (sendsOf (Sync env agents w modelName).2).Pairwise
        (fun a b => ¬ (a.2.1.Operation = Operation.UNLOAD_MODEL ∧
          b.2.1.Operation = Operation.LOAD_MODEL))) ∧
    mapLookup rolloutAgents { serverName := "serverS", replicaIdx := 1 }
      = some { finished := 11, stream := 11 } ∧
    mapLookup rolloutAgents { serverName := "serverS", replicaIdx := 0 }
      = some { finished := 10, stream := 10 } ∧
    sendsOf (Sync (calmEnv rolloutModels 0 []) rolloutAgents () "m1").2 =
      [(11, { Operation := Operation.LOAD_MODEL,
              ModelVersion := { Model := protoOf "m1" 1 none none, Version := 3 } }, none),
       (10, { Operation := Operation.UNLOAD_MODEL,
              ModelVersion := { Model := protoOf "m1" 1 none none, Version := 2 } }, none)] := by
  refine ⟨?_, by decide, by decide, by decide⟩
  intro σ env agents w modelName
  by_cases hfound : ∃ model, env.GetModel w modelName = (some model, none)
  · obtain ⟨model, hget⟩ := hfound
    have hr := (Sync_realises env agents w modelName model hget).1
    have hplan : (loadPlan agents model ++ unloadPlan agents model).Pairwise
        (fun p q => ¬ (p.msg.Operation = Operation.UNLOAD_MODEL ∧
          q.msg.Operation = Operation.LOAD_MODEL)) := by
      rw [List.pairwise_append]
      refine ⟨?_, ?_, ?_⟩
      · refine List.Pairwise.imp_of_mem ?_ (List.pairwise_of_forall (l := loadPlan agents model)
          (R := fun _ _ => True) (fun _ _ => trivial))
        intro p q hp _ _ hc
        rw [loadPlan_operation hp] at hc
        cases hc.1
      · refine List.Pairwise.imp_of_mem ?_ (List.pairwise_of_forall
          (l := unloadPlan agents model) (R := fun _ _ => True) (fun _ _ => trivial))
        intro p q _ hq _ hc
        rw [unloadPlan_operation hq] at hc
        cases hc.2
      · intro p hp q _ hc
        rw [loadPlan_operation hp] at hc
        cases hc.1
    have hmapped : ((sendsOf (Sync env agents w modelName).2).map sendTarget).Pairwise
        (fun a b => ¬ (a.2.Operation = Operation.UNLOAD_MODEL ∧
          b.2.Operation = Operation.LOAD_MODEL)) := by
      rw [hr, List.pairwise_map]
      exact hplan
    rw [List.pairwise_map] at hmapped
    exact hmapped
  · rw [(Sync_not_found env agents w modelName (fun model hm => hfound ⟨model, hm⟩)).1]
    exact List.Pairwise.nil

/-! ## Unloads over all versions -/

/-- The UNLOAD_MODEL sends of a trace, as (stream, message) pairs. -/
theorem unload_sends_of_realises {lp up : List PlanItem} {t : List Action}
    (h : Realises (lp ++ up) t)
    (hl : ∀ p ∈ lp, p.msg.Operation = Operation.LOAD_MODEL)
    (hu : ∀ p ∈ up, p.msg.Operation = Operation.UNLOAD_MODEL) :
    ((sendsOf t).map sendTarget).filter
        (fun s => decide (s.2.Operation = Operation.UNLOAD_MODEL))
      = up.map (fun p => (p.stream, p.msg)) := by
  rw [h.1, List.map_append, List.filter_append]
  have h1 : (lp.map (fun p => (p.stream, p.msg))).filter
      (fun s => decide (s.2.Operation = Operation.UNLOAD_MODEL)) = [] := by
    rw [List.filter_eq_nil_iff]
    intro s hs
    rw [List.mem_map] at hs
    obtain ⟨p, hp, rfl⟩ := hs
    simp [hl p hp]
  have h2 : (up.map (fun p => (p.stream, p.msg))).filter
      (fun s => decide (s.2.Operation = Operation.UNLOAD_MODEL))
      = up.map (fun p => (p.stream, p.msg)) := by
    rw [List.filter_eq_self]
    intro s hs
    rw [List.mem_map] at hs
    obtain ⟨p, hp, rfl⟩ := hs
    simp [hu p hp]
  rw [h1, h2, List.nil_append]

/-- C4, as the claim states it, fails: version 2 of `m1` reports replica 0 in state
`UnloadRequested`, yet with no subscriber registered `Sync` sends no message at all. -/
theorem Sync_unload_needs_subscriber :
    (calmEnv rolloutModels 0 []).GetModel () "m1" = (rolloutModels "m1", none) ∧
    (rolloutModels "m1").map (fun m => m.Versions.map (fun v => v.GetVersion)) = some [2, 3] ∧
    m1v2.GetReplicaForState ModelReplicaState.UnloadRequested = [0] ∧
    sendsOf (Sync (calmEnv rolloutModels 0 []) [] () "m1").2 = [] := by
  refine ⟨rfl, by decide, by decide, by decide⟩

/-- C4, amended. For a model found in the store, the UNLOAD_MODEL messages of one `Sync`
call are, in order, exactly one for each pair (version, replicaIdx) such that the version
is any version of the model, replicaIdx is reported by it in state `UnloadRequested`, and
a subscriber is registered under `(version.Server, uint32 replicaIdx)`; the message
carries that version's model and number and goes to that subscriber's stream. -/
theorem Sync_unloads_all_versions {σ : Type} (env : Env σ) (agents : AgentsMap) (w : σ)
    (modelName : String) (model : ModelSnapshot)
    (hget : env.GetModel w modelName = (some model, none)) :
    ((sendsOf (Sync env agents w modelName).2).map sendTarget).filter
        (fun s => decide (s.2.Operation = Operation.UNLOAD_MODEL))
      = model.Versions.flatMap (fun version =>
          (version.GetReplicaForState ModelReplicaState.UnloadRequested).filterMap
            (fun replicaIdx =>
              (mapLookup agents
                { serverName := version.Server, replicaIdx := uint32 replicaIdx }).map
                (fun sub => (sub.stream,
                  { Operation := Operation.UNLOAD_MODEL,
                    ModelVersion := { Model := version.GetModel,
                                      Version := version.GetVersion } })))) := by
  rw [unload_sends_of_realises (Sync_realises env agents w modelName model hget)
    (fun p hp => loadPlan_operation hp) (fun p hp => unloadPlan_operation hp)]
  unfold unloadPlan unloadPlanOf planReplicas planReplica
  rw [List.map_flatMap]
  congr 1
  funext version
  rw [List.map_filterMap]
  congr 1
  funext replicaIdx
  cases mapLookup agents { serverName := version.Server, replicaIdx := uint32 replicaIdx } <;> rfl

/-- C4 amended, at the rollout store: the one UNLOAD_MODEL is that of version 2 for
replica 0 of `serverS`. -/
theorem Sync_unloads_all_versions_witness :
    ((sendsOf (Sync (calmEnv rolloutModels 0 []) rolloutAgents () "m1").2).map
        sendTarget).filter (fun s => decide (s.2.Operation = Operation.UNLOAD_MODEL))
      = [m1v2, m1v3].flatMap (fun version =>
          (version.GetReplicaForState ModelReplicaState.UnloadRequested).filterMap
            (fun replicaIdx =>
              (mapLookup rolloutAgents
                { serverName := version.Server, replicaIdx := uint32 replicaIdx }).map
                (fun sub => (sub.stream,
                  { Operation := Operation.UNLOAD_MODEL,
                    ModelVersion := { Model := version.GetModel,
                                      Version := version.GetVersion } })))) :=
  Sync_unloads_all_versions (calmEnv rolloutModels 0 []) rolloutAgents () "m1"
    { Versions := [m1v2, m1v3], GetLatest := some m1v3, GetLastAvailableModel := some m1v2 }
    rfl

/-! ## Store transitions requested by the reconciler -/

/-- C5. For a model found in the store, one `Sync` call attempts the send of every planned
command (one per `LoadRequested` replica of the latest version and per `UnloadRequested`
replica of any version that has a registered subscriber), in order and whatever the
results of earlier sends and store calls; and the `UpdateModelState` calls it makes are
exactly those of the planned commands whose send returned no error:
`LoadRequested → Loading` for loads and `UnloadRequested → Unloading` for unloads.  A
replica without subscriber is not in the plan, so it gets no call, and neither does one
whose send failed. -/
theorem Sync_transitions {σ : Type} (env : Env σ) (agents : AgentsMap) (w : σ)
    (modelName : String) (model : ModelSnapshot)
    (hget : env.GetModel w modelName = (some model, none)) :
    (sendsOf (Sync env agents w modelName).2).map sendTarget
      = (loadPlan agents model ++ unloadPlan agents model).map (fun p => (p.stream, p.msg)) ∧
    updatesOf (Sync env agents w modelName).2
      = (((loadPlan agents model ++ unloadPlan agents model).zip
            (sendsOf (Sync env agents w modelName).2)).filter
          (fun x => x.2.2.2.isNone)).map (fun x => x.1.call) ∧
    (∀ p ∈ loadPlan agents model,
      p.call.expectedState = ModelReplicaState.LoadRequested ∧
      p.call.desiredState = ModelReplicaState.Loading ∧
      ∃ latest, model.GetLatest = some latest ∧
        p.call.replicaIdx ∈ latest.GetReplicaForState ModelReplicaState.LoadRequested ∧
        p.call.modelKey = latest.Key ∧ p.call.version = latest.GetVersion ∧
        p.call.serverKey = latest.Server) ∧
    (∀ p ∈ unloadPlan agents model,
      p.call.expectedState = ModelReplicaState.UnloadRequested ∧
      p.call.desiredState = ModelReplicaState.Unloading ∧
      ∃ version ∈ model.Versions,
        p.call.replicaIdx ∈ version.GetReplicaForState ModelReplicaState.UnloadRequested ∧
        p.call.modelKey = version.Key ∧ p.call.version = version.GetVersion ∧
        p.call.serverKey = version.Server) := by
  have hr := Sync_realises env agents w modelName model hget
  refine ⟨hr.1, hr.2, ?_, ?_⟩
  · intro p hp
    unfold loadPlan at hp
    cases hlat : model.GetLatest with
    | none => simp [hlat] at hp
    | some latest =>
      simp only [hlat] at hp
      obtain ⟨r, hrs, _, _, _, _, hcall⟩ := mem_planReplicas hp
      rw [hcall]
      exact ⟨rfl, rfl, latest, rfl, hrs, rfl, rfl, rfl⟩
  · intro p hp
    obtain ⟨mv, hmv, hin⟩ := mem_unloadPlanOf hp
    obtain ⟨r, hrs, _, _, _, _, hcall⟩ := mem_planReplicas hin
    rw [hcall]
    exact ⟨rfl, rfl, mv, hmv, hrs, rfl, rfl, rfl⟩

/-- C5 at the rollout store when the send to replica 1 fails: both sends are attempted, and
the only transition requested is the one of version 2 at replica 0. -/
theorem Sync_transitions_witness :
    (sendsOf (Sync (faultyEnv rolloutModels [11] []) rolloutAgents () "m1").2).length = 2 ∧
    updatesOf (Sync (faultyEnv rolloutModels [11] []) rolloutAgents () "m1").2
      = [{ modelKey := "m1", version := 2, serverKey := "serverS", replicaIdx := 0,
           availableMemory := none, expectedState := ModelReplicaState.UnloadRequested,
           desiredState := ModelReplicaState.Unloading, reason := "" }] ∧
    updatesOf (Sync (faultyEnv rolloutModels [11] []) rolloutAgents () "m1").2
      = (((loadPlan rolloutAgents
              { Versions := [m1v2, m1v3], GetLatest := some m1v3,
                GetLastAvailableModel := some m1v2 }
            ++ unloadPlan rolloutAgents
              { Versions := [m1v2, m1v3], GetLatest := some m1v3,
                GetLastAvailableModel := some m1v2 }).zip
            (sendsOf (Sync (faultyEnv rolloutModels [11] []) rolloutAgents () "m1").2)).filter
          (fun x => x.2.2.2.isNone)).map (fun x => x.1.call) :=
  ⟨by decide, by decide,
    (Sync_transitions (faultyEnv rolloutModels [11] []) rolloutAgents () "m1"
      { Versions := [m1v2, m1v3], GetLatest := some m1v3, GetLastAvailableModel := some m1v2 }
      rfl).2.1⟩

/-! ## Status ingestor -/

/-- C6. `AgentEvent` calls `store.UpdateModelState` exactly once, with the fields of the
message and the state pair of the mapping table (for an event outside the table the
desired state is `Unknown`); it returns the empty acknowledgement exactly when that call
returns no error, and an `Internal` status carrying the error text otherwise.  With a
store that applies an update whose expected state is the current one, an event of the
table received for a replica in the expected state leaves it in the desired state. -/
theorem AgentEvent_transition {σ : Type} (env : Env σ) (w : σ) (message : ModelEventMessage) :
    (∃ expected desired,
      updatesOf (AgentEvent env w message).2.1
        = [{ modelKey := message.ModelName, version := message.ModelVersion,
             serverKey := message.ServerName, replicaIdx := (message.ReplicaIdx : Int),
             availableMemory := some message.AvailableMemoryBytes,
             expectedState := expected, desiredState := desired,
             reason := message.Message }] ∧
      (message.Event = Event.LOADED →
        expected = ModelReplicaState.Loading ∧ desired = ModelReplicaState.Loaded) ∧
      (message.Event = Event.UNLOADED →
        expected = ModelReplicaState.Unloading ∧ desired = ModelReplicaState.Unloaded) ∧
      (message.Event = Event.LOAD_FAILED →
        expected = ModelReplicaState.Loading ∧ desired = ModelReplicaState.LoadFailed) ∧
      (message.Event = Event.LOAD_FAIL_MEMORY →
        expected = ModelReplicaState.Loading ∧ desired = ModelReplicaState.LoadFailed) ∧
      (message.Event = Event.UNLOAD_FAILED →
        expected = ModelReplicaState.Unloading ∧ desired = ModelReplicaState.UnloadFailed) ∧
      (∀ code, message.Event = Event.other code →
        desired = ModelReplicaState.ModelReplicaStateUnknown)) ∧
    ((AgentEvent env w message).2.2 = Except.ok {} ↔
      (env.UpdateModelState w (agentEventCall message)).2 = none) ∧
    (∀ err, (env.UpdateModelState w (agentEventCall message)).2 = some err →
      (AgentEvent env w message).2.2
        = Except.error { code := Code.Internal, message := err }) ∧
    (∀ stateOf : σ → ReplicaId → ModelReplicaState,
      (∀ (v : σ) (call : UpdateModelStateCall), stateOf v call.target = call.expectedState →
        stateOf (env.UpdateModelState v call).1 call.target = call.desiredState) →
      (message.Event = Event.LOADED →
        stateOf w (agentEventCall message).target = ModelReplicaState.Loading →
        stateOf (AgentEvent env w message).1 (agentEventCall message).target
          = ModelReplicaState.Loaded) ∧
      (message.Event = Event.UNLOADED →
        stateOf w (agentEventCall message).target = ModelReplicaState.Unloading →
        stateOf (AgentEvent env w message).1 (agentEventCall message).target
          = ModelReplicaState.Unloaded) ∧
      (message.Event = Event.LOAD_FAILED →
        stateOf w (agentEventCall message).target = ModelReplicaState.Loading →
        stateOf (AgentEvent env w message).1 (agentEventCall message).target
          = ModelReplicaState.LoadFailed) ∧
      (message.Event = Event.LOAD_FAIL_MEMORY →
        stateOf w (agentEventCall message).target = ModelReplicaState.Loading →
        stateOf (AgentEvent env w message).1 (agentEventCall message).target
          = ModelReplicaState.LoadFailed) ∧
      (message.Event = Event.UNLOAD_FAILED →
        stateOf w (agentEventCall message).target = ModelReplicaState.Unloading →
        stateOf (AgentEvent env w message).1 (agentEventCall message).target
          = ModelReplicaState.UnloadFailed)) := by
  refine ⟨⟨(eventStates message.Event).1, (eventStates message.Event).2, ?_, ?_⟩, ?_, ?_, ?_⟩
  · unfold AgentEvent
    cases h : (env.UpdateModelState w (agentEventCall message)).2 <;>
      simp only [h] <;> simp [updatesOf, agentEventCall]
  · refine ⟨?_, ?_, ?_, ?_, ?_, ?_⟩
    · intro h
      simp [h, eventStates]
    · intro h
      simp [h, eventStates]
    · intro h
      simp [h, eventStates]
    · intro h
      simp [h, eventStates]
    · intro h
      simp [h, eventStates]
    · intro code h
      simp [h, eventStates]
  · unfold AgentEvent
    cases h : (env.UpdateModelState w (agentEventCall message)).2 <;> simp [h]
  · intro err h
    unfold AgentEvent
    simp [h]
  · intro stateOf hlaw
    have hw : (AgentEvent env w message).1
        = (env.UpdateModelState w (agentEventCall message)).1 := by
      unfold AgentEvent
      cases h : (env.UpdateModelState w (agentEventCall message)).2 <;> simp [h]
    have hnew := hlaw w (agentEventCall message)
    rw [hw]
    have hexp : (agentEventCall message).expectedState = (eventStates message.Event).1 := rfl
    have hdes : (agentEventCall message).desiredState = (eventStates message.Event).2 := rfl
    rw [hexp, hdes] at hnew
    refine ⟨?_, ?_, ?_, ?_, ?_⟩
    · intro hev hcur
      simpa [hev, eventStates] using hnew (by simpa [hev, eventStates] using hcur)
    · intro hev hcur
      simpa [hev, eventStates] using hnew (by simpa [hev, eventStates] using hcur)
    · intro hev hcur
      simpa [hev, eventStates] using hnew (by simpa [hev, eventStates] using hcur)
    · intro hev hcur
      simpa [hev, eventStates] using hnew (by simpa [hev, eventStates] using hcur)
    · intro hev hcur
      simpa [hev, eventStates] using hnew (by simpa [hev, eventStates] using hcur)

/-- The modelled store applies an update whose expected state is the current one. -/
theorem storeUpdateModelState_applies (states : ReplicaStates) (call : UpdateModelStateCall)
    (h : states call.target = call.expectedState) :
    (storeUpdateModelState states call).1 call.target = call.desiredState ∧
      (storeUpdateModelState states call).2 = none := by
  unfold storeUpdateModelState
  simp [h]

/-- C6 on the modelled store: the LOADED report for `m1` version 3 at `(serverS, 0)`, a
replica that is `Loading`, is acknowledged and leaves the replica `Loaded`. -/
theorem AgentEvent_transition_witness :
    (AgentEvent storeEnv allLoading loadedMessage).2.2 = Except.ok {} ∧
    (AgentEvent storeEnv allLoading loadedMessage).1
        { modelKey := "m1", version := 3, serverKey := "serverS", replicaIdx := 0 }
      = ModelReplicaState.Loaded :=
  ⟨(AgentEvent_transition storeEnv allLoading loadedMessage).2.1.2 rfl,
    ((AgentEvent_transition storeEnv allLoading loadedMessage).2.2.2 (fun v id => v id)
      (fun v call h => (storeUpdateModelState_applies v call h).1)).1 rfl rfl⟩

/-! ## Autoscaling bounds -/

theorem wrapInt_of_inRange (x : Int) (h0 : -9223372036854775808 ≤ x)
    (h1 : x < 9223372036854775808) : wrapInt x = x := by
  unfold wrapInt
  rw [Int.emod_eq_of_lt (by omega) (by omega)]
  omega

/-- The range check accepts exactly the targets within the bounds. -/
theorem checkModelScalingWithinRange_none (model : Model) (t : Int) :
    checkModelScalingWithinRange model t = none ↔
      (¬ (model.GetMinReplicas = 0 ∧ model.GetMaxReplicas = 0) ∧
        (model.GetMinReplicas : Int) ≤ t ∧ 1 ≤ t ∧
        (model.GetMaxReplicas = 0 ∨ t ≤ (model.GetMaxReplicas : Int))) := by
  unfold checkModelScalingWithinRange
  simp only []
  split_ifs with h1 h2 h3
  · simp [h1]
  · simp only [false_iff, reduceCtorEq]
    rintro ⟨_, h4, h5, _⟩
    omega
  · simp only [false_iff, reduceCtorEq]
    rintro ⟨_, _, _, h6⟩
    omega
  · simp only [true_iff]
    refine ⟨h1, by omega, by omega, ?_⟩
    by_cases hz : model.GetMaxReplicas = 0
    · exact Or.inl hz
    · right
      by_contra hc
      exact h3 ⟨by omega, by omega⟩

/-- C7. For every model spec, trigger and replica count `n` (a slice length, so
`0 ≤ n` and `n + 1` is an `int`), `calculateDesiredNumReplicas` returns `t` if and only if
the trigger is SCALE_UP with `t = n + 1` or SCALE_DOWN with `t = n - 1`, not both bounds
are 0, `t ≥ minReplicas`, `t ≥ 1`, and `maxReplicas = 0` or `t ≤ maxReplicas`; in every
other case it returns an error.  In particular SCALE_DOWN at `n = minReplicas`, SCALE_UP at
`n = maxReplicas > 0`, and every trigger when both bounds are 0, are rejected. -/
theorem calculateDesiredNumReplicas_bounds (model : Model) (n : Int)
    (hn0 : 0 ≤ n) (hn1 : n < 9223372036854775807) :
    (∀ (trigger : Trigger) (t : Int),
      calculateDesiredNumReplicas model trigger n = Except.ok t ↔
        ((trigger = Trigger.SCALE_UP ∧ t = n + 1 ∨ trigger = Trigger.SCALE_DOWN ∧ t = n - 1) ∧
          ¬ (model.GetMinReplicas = 0 ∧ model.GetMaxReplicas = 0) ∧
          (model.GetMinReplicas : Int) ≤ t ∧ 1 ≤ t ∧
          (model.GetMaxReplicas = 0 ∨ t ≤ (model.GetMaxReplicas : Int)))) ∧
    (∀ (trigger : Trigger),
      (¬ ∃ t, calculateDesiredNumReplicas model trigger n = Except.ok t) →
        ∃ err, calculateDesiredNumReplicas model trigger n = Except.error err) ∧
    (n = (model.GetMinReplicas : Int) →
      ∃ err, calculateDesiredNumReplicas model Trigger.SCALE_DOWN n = Except.error err) ∧
    (0 < model.GetMaxReplicas → n = (model.GetMaxReplicas : Int) →
      ∃ err, calculateDesiredNumReplicas model Trigger.SCALE_UP n = Except.error err) ∧
    (model.GetMinReplicas = 0 → model.GetMaxReplicas = 0 →
      ∀ trigger, ∃ err, calculateDesiredNumReplicas model trigger n = Except.error err) := by
  have hup : wrapInt (n + 1) = n + 1 := wrapInt_of_inRange _ (by omega) (by omega)
  have hdown : wrapInt (n - 1) = n - 1 := wrapInt_of_inRange _ (by omega) (by omega)
  have hiff : ∀ (trigger : Trigger) (t : Int),
      calculateDesiredNumReplicas model trigger n = Except.ok t ↔
        ((trigger = Trigger.SCALE_UP ∧ t = n + 1 ∨ trigger = Trigger.SCALE_DOWN ∧ t = n - 1) ∧
          ¬ (model.GetMinReplicas = 0 ∧ model.GetMaxReplicas = 0) ∧
          (model.GetMinReplicas : Int) ≤ t ∧ 1 ≤ t ∧
          (model.GetMaxReplicas = 0 ∨ t ≤ (model.GetMaxReplicas : Int))) := by
    intro trigger t
    unfold calculateDesiredNumReplicas
    rw [hup, hdown]
    cases trigger with
    | SCALE_UP =>
      simp only [if_true, reduceCtorEq, false_and, or_false, true_and]
      cases hc : checkModelScalingWithinRange model (n + 1) with
      | none =>
        have := (checkModelScalingWithinRange_none model (n + 1)).1 hc
        simp only [Except.ok.injEq]
        constructor
        · intro h
          subst h
          exact ⟨rfl, this⟩
        · intro h
          exact h.1.symm
      | some e =>
        simp only [reduceCtorEq, false_iff]
        rintro ⟨rfl, h⟩
        have := (checkModelScalingWithinRange_none model (n + 1)).2 h
        rw [hc] at this
        cases this
    | SCALE_DOWN =>
      simp only [reduceCtorEq, if_false, if_true, false_and, false_or, true_and]
      cases hc : checkModelScalingWithinRange model (n - 1) with
      | none =>
        have := (checkModelScalingWithinRange_none model (n - 1)).1 hc
        simp only [Except.ok.injEq]
        constructor
        · intro h
          subst h
          exact ⟨rfl, this⟩
        · intro h
          exact h.1.symm
      | some e =>
        simp only [reduceCtorEq, false_iff]
        rintro ⟨rfl, h⟩
        have := (checkModelScalingWithinRange_none model (n - 1)).2 h
        rw [hc] at this
        cases this
    | other code =>
      simp
  have herr : ∀ (trigger : Trigger),
      (¬ ∃ t, calculateDesiredNumReplicas model trigger n = Except.ok t) →
        ∃ err, calculateDesiredNumReplicas model trigger n = Except.error err := by
    intro trigger hno
    cases hres : calculateDesiredNumReplicas model trigger n with
    | error e => exact ⟨e, rfl⟩
    | ok t => exact absurd ⟨t, hres⟩ hno
  refine ⟨hiff, herr, ?_, ?_, ?_⟩
  · intro hmin
    apply herr
    rintro ⟨t, ht⟩
    have := (hiff _ _).1 ht
    rcases this with ⟨h | h, _, h3, _, _⟩
    · cases h.1
    · omega
  · intro hpos hmax
    apply herr
    rintro ⟨t, ht⟩
    have := (hiff _ _).1 ht
    rcases this with ⟨h | h, _, _, _, h5⟩
    · rcases h5 with h5 | h5 <;> omega
    · cases h.1
  · intro hmin hmax trigger
    apply herr
    rintro ⟨t, ht⟩
    exact ((hiff _ _).1 ht).2.1 ⟨hmin, hmax⟩

/-- C7 for the spec `min = 1`, `max = 4` at two replicas: SCALE_UP gives 3. -/
theorem calculateDesiredNumReplicas_bounds_witness :
    calculateDesiredNumReplicas (protoOf "m3" 2 (some 1) (some 4)) Trigger.SCALE_UP 2
      = Except.ok 3 :=
  ((calculateDesiredNumReplicas_bounds (protoOf "m3" 2 (some 1) (some 4)) 2
    (by decide) (by decide)).1 Trigger.SCALE_UP 3).2
    ⟨Or.inl ⟨rfl, by decide⟩, by decide, by decide, by decide, Or.inr (by decide)⟩

/-! ## Cooling-off -/

theorem isModelStable_iff (now : Int) (mv : ModelVersion) :
    isModelStable now mv = true ↔
      mv.Timestamp < now - modelScalingCoolingOffSeconds * timeSecond := by
  unfold isModelStable
  rw [decide_eq_true_iff]
  constructor <;> intro h <;> linarith

/-- When `createScalingPseudoRequest` fails, `applyModelScaling` calls neither
`UpdateModel` nor `Schedule` and returns the error. -/
theorem applyModelScaling_rejected {σ : Type} (env : Env σ) (w : σ)
    (message : ModelScalingTriggerMessage) (model : ModelSnapshot) (mv : ModelVersion)
    (err : ScalingError)
    (hget : env.GetModel w message.ModelName = (some model, none))
    (hlast : model.GetLastAvailableModel = some mv)
    (hrej : createScalingPseudoRequest (env.Now w) message mv = Except.error err) :
    (applyModelScaling env w message).2.1 = [Action.GetModel message.ModelName] ∧
      (applyModelScaling env w message).2.2 = some err := by
  unfold applyModelScaling
  simp [hget, hlast, hrej]

/-- C8, as the claim states it, fails: a SCALE_UP for version 4 of `m2` arriving 10 s after
the last state change of the last-available version 5 is rejected with the version
mismatch error, not with the error of the cooling-off check. -/
theorem cooling_off_after_version_check :
    (scaleUpM2 4).Trigger = Trigger.SCALE_UP ∧
    1000 * timeSecond - m2v5.Timestamp = 10 * timeSecond ∧
    createScalingPseudoRequest (1000 * timeSecond) (scaleUpM2 4) m2v5
      = Except.error (ScalingError.versionNotMatching "m2" 5 4) ∧
    createScalingPseudoRequest (1000 * timeSecond) (scaleUpM2 4) m2v5
      ≠ Except.error (ScalingError.changedStatusRecently "m2") := by
  refine ⟨rfl, by decide, ?_, ?_⟩
  · simp [createScalingPseudoRequest, scaleUpM2, m2v5]
  · simp [createScalingPseudoRequest, scaleUpM2, m2v5]

/-- C8, amended. With the clock read as `now`: a version is stable if and only if its last
state change is older than `now - 300 s`; a request (SCALE_UP or any other trigger) that
names the last-available version's number and arrives less than 300 s after that version's
last state change is rejected by `createScalingPseudoRequest` with the error "has changed
status recently", whatever the bounds and the replica count; and `applyModelScaling`, for
such a request with any version number, calls neither `store.UpdateModel` nor
`scheduler.Schedule`. -/
theorem cooling_off (now : Int) (message : ModelScalingTriggerMessage) (mv : ModelVersion)
    (hrecent : now - mv.Timestamp < modelScalingCoolingOffSeconds * timeSecond) :
    (∀ (clock : Int) (version : ModelVersion), isModelStable clock version = true ↔
      version.Timestamp < clock - modelScalingCoolingOffSeconds * timeSecond) ∧
    isModelStable now mv = false ∧
    (message.ModelVersion = mv.GetVersion →
      createScalingPseudoRequest now message mv
        = Except.error (ScalingError.changedStatusRecently message.ModelName)) ∧
    (∀ (σ : Type) (env : Env σ) (w : σ) (model : ModelSnapshot),
      env.GetModel w message.ModelName = (some model, none) →
      model.GetLastAvailableModel = some mv →
      env.Now w = now →
      updateModelsOf (applyModelScaling env w message).2.1 = [] ∧
      schedulesOf (applyModelScaling env w message).2.1 = [] ∧
      (applyModelScaling env w message).2.2 ≠ none) := by
  have hunstable : isModelStable now mv = false := by
    cases hst : isModelStable now mv with
    | false => rfl
    | true =>
      have := (isModelStable_iff now mv).1 hst
      linarith
  have hrej : ∀ msg : ModelScalingTriggerMessage, ∃ err,
      createScalingPseudoRequest now msg mv = Except.error err ∧
      (msg.ModelVersion = mv.GetVersion →
        err = ScalingError.changedStatusRecently msg.ModelName) := by
    intro msg
    unfold createScalingPseudoRequest
    by_cases hv : mv.GetVersion = msg.ModelVersion
    · refine ⟨ScalingError.changedStatusRecently msg.ModelName, ?_, fun _ => rfl⟩
      simp [hv, hunstable]
    · refine ⟨ScalingError.versionNotMatching msg.ModelName mv.GetVersion msg.ModelVersion,
        by simp [hv], ?_⟩
      intro h
      exact absurd h.symm hv
  refine ⟨isModelStable_iff, hunstable, ?_, ?_⟩
  · intro hv
    obtain ⟨err, herr, hkind⟩ := hrej message
    rw [herr, hkind hv]
  · intro σ env w model hget hlast hnow
    obtain ⟨err, herr, _⟩ := hrej message
    rw [← hnow] at herr
    have h := applyModelScaling_rejected env w message model mv err hget hlast herr
    rw [h.1, h.2]
    simp [updateModelsOf, schedulesOf]

/-- C8 amended, at the cooldown store: the SCALE_UP for version 5 of `m2`, 10 s after its
last state change, is rejected as unstable and nothing is updated or scheduled. -/
theorem cooling_off_witness :
    createScalingPseudoRequest (1000 * timeSecond) (scaleUpM2 5) m2v5
      = Except.error (ScalingError.changedStatusRecently "m2") ∧
    schedulesOf (applyModelScaling (calmEnv coolingModels (1000 * timeSecond) []) ()
      (scaleUpM2 5)).2.1 = [] :=
  ⟨(cooling_off (1000 * timeSecond) (scaleUpM2 5) m2v5 (by decide)).2.2.1 rfl,
    ((cooling_off (1000 * timeSecond) (scaleUpM2 5) m2v5 (by decide)).2.2.2
      Unit (calmEnv coolingModels (1000 * timeSecond) []) ()
      { Versions := [m2v5], GetLatest := some m2v5, GetLastAvailableModel := some m2v5 }
      rfl rfl rfl).2.1⟩

/-! ## Applying a scaling request -/

/-- A computed target comes from one of the two triggers and is at least 1. -/
theorem calculateDesiredNumReplicas_ok {model : Model} {trigger : Trigger} {n t : Int}
    (h : calculateDesiredNumReplicas model trigger n = Except.ok t) :
    (trigger = Trigger.SCALE_UP ∧ t = wrapInt (n + 1) ∨
      trigger = Trigger.SCALE_DOWN ∧ t = wrapInt (n - 1)) ∧ 1 ≤ t ∧
      ¬ (model.GetMinReplicas = 0 ∧ model.GetMaxReplicas = 0) := by
  unfold calculateDesiredNumReplicas at h
  cases trigger with
  | SCALE_UP =>
    simp only [if_true] at h
    cases hc : checkModelScalingWithinRange model (wrapInt (n + 1)) with
    | none =>
      rw [hc] at h
      simp only [Except.ok.injEq] at h
      have := (checkModelScalingWithinRange_none model _).1 hc
      exact ⟨Or.inl ⟨rfl, h.symm⟩, h ▸ this.2.2.1, this.1⟩
    | some e =>
      rw [hc] at h
      cases h
  | SCALE_DOWN =>
    simp only [reduceCtorEq, if_false, if_true] at h
    cases hc : checkModelScalingWithinRange model (wrapInt (n - 1)) with
    | none =>
      rw [hc] at h
      simp only [Except.ok.injEq] at h
      have := (checkModelScalingWithinRange_none model _).1 hc
      exact ⟨Or.inr ⟨rfl, h.symm⟩, h ▸ this.2.2.1, this.1⟩
    | some e =>
      rw [hc] at h
      cases h
  | other code =>
    simp at h

/-- A computed target implies that the deployment spec is present. -/
theorem spec_of_calculated {model : Model} {trigger : Trigger} {n t : Int}
    (h : calculateDesiredNumReplicas model trigger n = Except.ok t) :
    ∃ spec, model.Spec = some spec := by
  cases hs : model.Spec with
  | some spec => exact ⟨spec, rfl⟩
  | none =>
    exfalso
    apply (calculateDesiredNumReplicas_ok h).2.2
    simp [Model.GetMinReplicas, Model.GetMaxReplicas, hs]

/-- The pseudo request is built exactly when the three checks pass; it is the model proto
of the version with `Replicas` set to `uint32` of the target. -/
theorem createScalingPseudoRequest_ok (now : Int) (message : ModelScalingTriggerMessage)
    (mv : ModelVersion) (proto : Model) :
    createScalingPseudoRequest now message mv = Except.ok proto ↔
      mv.GetVersion = message.ModelVersion ∧ isModelStable now mv = true ∧
      ∃ t spec,
        calculateDesiredNumReplicas mv.GetModel message.Trigger
          (mv.GetAssignment.length : Int) = Except.ok t ∧
        mv.GetModel.Spec = some spec ∧
        proto = { Meta := mv.GetModel.Meta,
                  Spec := some { Replicas := uint32 t, MinReplicas := spec.MinReplicas,
                                 MaxReplicas := spec.MaxReplicas } } := by
  unfold createScalingPseudoRequest
  by_cases hv : mv.GetVersion = message.ModelVersion
  · cases hst : isModelStable now mv with
    | false => simp [hv, hst]
    | true =>
      cases hc : calculateDesiredNumReplicas mv.GetModel message.Trigger
          (mv.GetAssignment.length : Int) with
      | error e => simp [hv, hst, hc]
      | ok t =>
        obtain ⟨spec, hspec⟩ := spec_of_calculated hc
        simp only [hv, ne_eq, not_true_eq_false, if_false, hst, Bool.not_true,
          Bool.false_eq_true, hc, hspec, Except.ok.injEq, true_and]
        constructor
        · intro h
          exact ⟨t, spec, rfl, rfl, h.symm⟩
        · rintro ⟨t2, spec2, ht, hs, hp⟩
          subst ht
          cases hs
          exact hp.symm
  · simp [hv]

theorem updateAndSchedule_trace {σ : Type} (env : Env σ) (w : σ) (proto : Model) :
    (updateAndSchedule env w proto).2.1 =
      Action.UpdateModel proto (env.UpdateModel w proto).2 ::
        (if (env.UpdateModel w proto).2 = none then
          [Action.Schedule proto.GetName
            (env.Schedule (env.UpdateModel w proto).1 proto.GetName).2]
        else []) := by
  unfold updateAndSchedule
  cases h : (env.UpdateModel w proto).2 <;> simp [h]

/-- When the pseudo request is built, `applyModelScaling` hands it to
`updateAndSchedule`. -/
theorem applyModelScaling_accepted {σ : Type} (env : Env σ) (w : σ)
    (message : ModelScalingTriggerMessage) (model : ModelSnapshot) (mv : ModelVersion)
    (proto : Model)
    (hget : env.GetModel w message.ModelName = (some model, none))
    (hlast : model.GetLastAvailableModel = some mv)
    (hcreate : createScalingPseudoRequest (env.Now w) message mv = Except.ok proto) :
    (applyModelScaling env w message).2.1 =
      Action.GetModel message.ModelName :: (updateAndSchedule env w proto).2.1 := by
  unfold applyModelScaling
  simp [hget, hlast, hcreate]

theorem crowdedAssignment_length :
    (crowdedVersion.GetAssignment.length : Int) = 4294967295 := by
  have hfield : crowdedVersion.GetAssignment = crowdedAssignment := by
    simp only [crowdedVersion]
  have h : crowdedAssignment.length = 4294967295 := by
    unfold crowdedAssignment
    rw [List.length_map, List.length_range]
  rw [hfield, h]
  rfl

/-- C9, as the claim states it, fails: with the 4294967295 replicas 0 to 4294967294
assigned, a lower bound of 1 and no upper bound, the SCALE_UP target 4294967296 passes
every check, and the proto handed to `store.UpdateModel` has `Replicas = 0`. -/
theorem scaling_replicas_truncated :
    (crowdedVersion.GetAssignment.length : Int) + 1 = 4294967296 ∧
    calculateDesiredNumReplicas crowdedVersion.GetModel Trigger.SCALE_UP
      (crowdedVersion.GetAssignment.length : Int) = Except.ok 4294967296 ∧
    createScalingPseudoRequest (1000 * timeSecond) scaleUpM6 crowdedVersion
      = Except.ok (protoOf "m6" 0 (some 1) none) ∧
    updateModelsOf (applyModelScaling (calmEnv crowdedModels (1000 * timeSecond) []) ()
      scaleUpM6).2.1 = [protoOf "m6" 0 (some 1) none] := by
  have hcalc : calculateDesiredNumReplicas crowdedVersion.GetModel Trigger.SCALE_UP
      (crowdedVersion.GetAssignment.length : Int) = Except.ok 4294967296 := by
    rw [crowdedAssignment_length]
    rfl
  have hcreate : createScalingPseudoRequest (1000 * timeSecond) scaleUpM6 crowdedVersion
      = Except.ok (protoOf "m6" 0 (some 1) none) := by
    rw [createScalingPseudoRequest_ok]
    exact ⟨rfl, by decide, 4294967296, _, hcalc, rfl, by decide⟩
  have hget : (calmEnv crowdedModels (1000 * timeSecond) []).GetModel () scaleUpM6.ModelName
      = (some { Versions := [crowdedVersion], GetLatest := some crowdedVersion,
                GetLastAvailableModel := some crowdedVersion }, none) := by
    simp [calmEnv, crowdedModels, scaleUpM6]
  refine ⟨by rw [crowdedAssignment_length]; rfl, hcalc, hcreate, ?_⟩
  rw [applyModelScaling_accepted (calmEnv crowdedModels (1000 * timeSecond) []) ()
    scaleUpM6 _ crowdedVersion (protoOf "m6" 0 (some 1) none) hget rfl hcreate,
    updateAndSchedule_trace]
  decide

/-- Without a model proto to submit, `applyModelScaling` makes only the `GetModel` call. -/
theorem applyModelScaling_quiet {σ : Type} (env : Env σ) (w : σ)
    (message : ModelScalingTriggerMessage)
    (h : ¬ ∃ model mv t, PassesChecks env w message model mv t) :
    (applyModelScaling env w message).2.1 = [Action.GetModel message.ModelName] := by
  unfold applyModelScaling
  rcases hg : env.GetModel w message.ModelName with ⟨m, e⟩
  cases e with
  | some e => simp [hg]
  | none =>
    cases m with
    | none => simp [hg]
    | some model =>
      cases hl : model.GetLastAvailableModel with
      | none => simp [hg, hl]
      | some mv =>
        cases hc : createScalingPseudoRequest (env.Now w) message mv with
        | error err => simp [hg, hl, hc]
        | ok proto =>
          exfalso
          obtain ⟨hv, hst, t, _, hcalc, _, _⟩ :=
            (createScalingPseudoRequest_ok _ _ _ _).1 hc
          exact h ⟨model, mv, t, hg, hl, hv, hst, hcalc⟩

/-- C9, amended. For a scaling request that passes all checks, `applyModelScaling` calls
`store.UpdateModel` exactly once, with the model proto of the last-available version in
which `Replicas` is `uint32` of the target, and then, if that call succeeds, calls
`scheduler.Schedule` exactly once with the proto's model name.  When the number of assigned
replicas plus one is below 2^32, the target is current + 1 for SCALE_UP and current - 1
for SCALE_DOWN and the conversion keeps its value.  A request that fails a check leads to
neither call. -/
theorem applyModelScaling_updates {σ : Type} (env : Env σ) (w : σ)
    (message : ModelScalingTriggerMessage) :
    (∀ model mv t, PassesChecks env w message model mv t →
      ∃ spec proto, mv.GetModel.Spec = some spec ∧
        proto = { Meta := mv.GetModel.Meta,
                  Spec := some { Replicas := uint32 t, MinReplicas := spec.MinReplicas,
                                 MaxReplicas := spec.MaxReplicas } } ∧
        (applyModelScaling env w message).2.1 =
          Action.GetModel message.ModelName ::
            Action.UpdateModel proto (env.UpdateModel w proto).2 ::
              (if (env.UpdateModel w proto).2 = none then
                [Action.Schedule mv.GetModel.GetName
                  (env.Schedule (env.UpdateModel w proto).1 mv.GetModel.GetName).2]
              else []) ∧
        updateModelsOf (applyModelScaling env w message).2.1 = [proto] ∧
        ((env.UpdateModel w proto).2 = none →
          schedulesOf (applyModelScaling env w message).2.1 = [mv.GetModel.GetName]) ∧
        ((env.UpdateModel w proto).2 ≠ none →
          schedulesOf (applyModelScaling env w message).2.1 = []) ∧
        ((mv.GetAssignment.length : Int) + 1 < 4294967296 →
          (message.Trigger = Trigger.SCALE_UP →
            ((uint32 t : Nat) : Int) = (mv.GetAssignment.length : Int) + 1) ∧
          (message.Trigger = Trigger.SCALE_DOWN →
            ((uint32 t : Nat) : Int) = (mv.GetAssignment.length : Int) - 1))) ∧
    ((¬ ∃ model mv t, PassesChecks env w message model mv t) →
      updateModelsOf (applyModelScaling env w message).2.1 = [] ∧
      schedulesOf (applyModelScaling env w message).2.1 = []) := by
  constructor
  · rintro model mv t ⟨hget, hlast, hv, hst, hcalc⟩
    obtain ⟨spec, hspec⟩ := spec_of_calculated hcalc
    have hcreate := (createScalingPseudoRequest_ok (env.Now w) message mv
      { Meta := mv.GetModel.Meta,
        Spec := some { Replicas := uint32 t, MinReplicas := spec.MinReplicas,
                       MaxReplicas := spec.MaxReplicas } }).2
      ⟨hv, hst, t, spec, hcalc, hspec, rfl⟩
    have htrace := applyModelScaling_accepted env w message model mv _ hget hlast hcreate
    rw [updateAndSchedule_trace] at htrace
    have hname : Model.GetName
        { Meta := mv.GetModel.Meta,
          Spec := some { Replicas := uint32 t, MinReplicas := spec.MinReplicas,
                         MaxReplicas := spec.MaxReplicas } } = mv.GetModel.GetName := rfl
    rw [hname] at htrace
    refine ⟨spec, _, hspec, rfl, htrace, ?_, ?_, ?_, ?_⟩
    · rw [htrace]
      split_ifs <;> simp [updateModelsOf]
    · intro hok
      rw [htrace, if_pos hok]
      simp [schedulesOf]
    · intro hfail
      rw [htrace, if_neg hfail]
      simp [schedulesOf]
    · intro hsmall
      obtain ⟨hkind, hone, _⟩ := calculateDesiredNumReplicas_ok hcalc
      have hlen : (0 : Int) ≤ (mv.GetAssignment.length : Int) := Int.natCast_nonneg _
      have hup : wrapInt ((mv.GetAssignment.length : Int) + 1)
          = (mv.GetAssignment.length : Int) + 1 :=
        wrapInt_of_inRange _ (by omega) (by omega)
      have hdown : wrapInt ((mv.GetAssignment.length : Int) - 1)
          = (mv.GetAssignment.length : Int) - 1 :=
        wrapInt_of_inRange _ (by omega) (by omega)
      rw [hup, hdown] at hkind
      constructor
      · intro htr
        rcases hkind with ⟨_, ht⟩ | ⟨hd, _⟩
        · rw [uint32_of_inRange t (by omega) (by omega), ht]
        · rw [htr] at hd
          cases hd
      · intro htr
        rcases hkind with ⟨hu, _⟩ | ⟨_, ht⟩
        · rw [htr] at hu
          cases hu
        · rw [uint32_of_inRange t (by omega) (by omega), ht]
  · intro hno
    rw [applyModelScaling_quiet env w message hno]
    simp [updateModelsOf, schedulesOf]

/-- C9 amended, at the scaling store: two replicas, bounds 1 and 4, SCALE_UP: the proto
submitted has `Replicas = 3` and `m3` is scheduled once. -/
theorem applyModelScaling_updates_witness :
    updateModelsOf (applyModelScaling (calmEnv scalingModels (1000 * timeSecond) []) ()
      scaleUpM3).2.1 = [protoOf "m3" 3 (some 1) (some 4)] ∧
    schedulesOf (applyModelScaling (calmEnv scalingModels (1000 * timeSecond) []) ()
      scaleUpM3).2.1 = ["m3"] := by
  obtain ⟨spec, proto, hspec, hproto, _, hupd, hsch, _, _⟩ :=
    (applyModelScaling_updates (calmEnv scalingModels (1000 * timeSecond) []) ()
      scaleUpM3).1
      { Versions := [m3v2], GetLatest := some m3v2, GetLastAvailableModel := some m3v2 }
      m3v2 3 ⟨rfl, rfl, rfl, by decide, rfl⟩
  have hs : spec = { Replicas := 2, MinReplicas := some 1, MaxReplicas := some 4 } := by
    have : some spec = some { Replicas := 2, MinReplicas := some 1, MaxReplicas := some 4 } :=
      hspec.symm.trans rfl
    exact Option.some.inj this
  subst hs
  have hp : proto = protoOf "m3" 3 (some 1) (some 4) := by
    rw [hproto]
    decide
  subst hp
  exact ⟨hupd, hsch rfl⟩

/-! ## Registry map -/

theorem mapLookup_mapDelete (agents : AgentsMap) (key : ServerKey) :
    mapLookup (mapDelete agents key) key = none := by
  induction agents with
  | nil => rfl
  | cons e rest ih =>
    obtain ⟨k, v⟩ := e
    unfold mapDelete at ih ⊢
    by_cases hk : k = key
    · simpa [List.filter_cons, hk] using ih
    · simp only [List.filter_cons, ne_eq, hk, not_false_eq_true, decide_True, if_true]
      simpa [mapLookup, hk] using ih

theorem mapLookup_mapInsert (agents : AgentsMap) (key : ServerKey) (sub : AgentSubscriber) :
    mapLookup (mapInsert agents key sub) key = some sub := by
  simp [mapInsert, mapLookup]

theorem entriesFor_mapDelete (agents : AgentsMap) (key : ServerKey) :
    entriesFor (mapDelete agents key) key = [] := by
  unfold entriesFor mapDelete
  rw [List.filter_filter, List.map_eq_nil_iff, List.filter_eq_nil_iff]
  intro e _
  by_cases hk : e.1 = key <;> simp [hk]

theorem entriesFor_mapInsert (agents : AgentsMap) (key : ServerKey) (sub : AgentSubscriber) :
    entriesFor (mapInsert agents key sub) key = [sub] := by
  have h := entriesFor_mapDelete agents key
  unfold entriesFor at h ⊢
  unfold mapInsert
  simp [List.filter_cons, h]

theorem entriesFor_of_lookup_none (agents : AgentsMap) (key : ServerKey)
    (h : mapLookup agents key = none) : entriesFor agents key = [] := by
  induction agents with
  | nil => rfl
  | cons e rest ih =>
    obtain ⟨k, v⟩ := e
    by_cases hk : k = key
    · simp [mapLookup, hk] at h
    · simp only [mapLookup, hk, if_false] at h
      have := ih h
      unfold entriesFor at this ⊢
      simpa [List.filter_cons, hk] using this

/-! ## Disconnect -/

theorem rescheduleModels_trace {σ : Type} (env : Env σ) (models : List String) (w : σ) :
    ∃ results : List (Option Err), results.length = models.length ∧
      (rescheduleModels env models w).2
        = (models.zip results).map (fun p => Action.Schedule p.1 p.2) := by
  induction models generalizing w with
  | nil => exact ⟨[], rfl, rfl⟩
  | cons m rest ih =>
    obtain ⟨results, hlen, htrace⟩ := ih (env.Schedule w m).1
    refine ⟨(env.Schedule w m).2 :: results, by simp [hlen], ?_⟩
    simp [rescheduleModels, htrace]

theorem schedulesOf_scheduled (models : List String) (results : List (Option Err))
    (h : results.length = models.length) :
    schedulesOf ((models.zip results).map (fun p => Action.Schedule p.1 p.2)) = models := by
  induction models generalizing results with
  | nil => simp [schedulesOf]
  | cons m rest ih =>
    cases results with
    | nil => simp at h
    | cons r rs =>
      have := ih rs (by simpa using h)
      unfold schedulesOf at this ⊢
      simp [List.filterMap_cons, this]

theorem removalsOf_scheduled (models : List String) (results : List (Option Err)) :
    removalsOf ((models.zip results).map (fun p => Action.Schedule p.1 p.2)) = [] := by
  unfold removalsOf
  rw [List.filterMap_eq_nil_iff]
  intro a ha
  rw [List.mem_map] at ha
  obtain ⟨p, _, rfl⟩ := ha
  rfl

/-- C10. When the stream context of a subscribed session is cancelled, `Subscribe` removes
the registry entry of the key, calls `store.RemoveServerReplica(serverName, replicaIdx)`
exactly once, and then calls `scheduler.Schedule` once for each model name of the returned
list, in its order and whatever the results of the earlier calls, and for no other model;
it returns the nil error. -/
theorem Subscribe_disconnect_reschedules {σ : Type} (env : Env σ) (srv : Server σ)
    (request : AgentSubscribeRequest) :
    mapLookup (subscribeWait env srv request WaitEvent.ctxDone).1.agents (requestKey request)
      = none ∧
    entriesFor (subscribeWait env srv request WaitEvent.ctxDone).1.agents (requestKey request)
      = [] ∧
    removalsOf (subscribeWait env srv request WaitEvent.ctxDone).2.1
      = [(request.ServerName, (request.ReplicaIdx : Int))] ∧
    schedulesOf (subscribeWait env srv request WaitEvent.ctxDone).2.1
      = (env.RemoveServerReplica srv.world request.ServerName
          (request.ReplicaIdx : Int)).2.1 ∧
    (∃ results : List (Option Err),
      results.length = (env.RemoveServerReplica srv.world request.ServerName
        (request.ReplicaIdx : Int)).2.1.length ∧
      (subscribeWait env srv request WaitEvent.ctxDone).2.1 =
        [Action.registryLock, Action.registryDelete (requestKey request),
          Action.registryUnlock,
          Action.RemoveServerReplica request.ServerName (request.ReplicaIdx : Int)
            (env.RemoveServerReplica srv.world request.ServerName
              (request.ReplicaIdx : Int)).2.1
            (env.RemoveServerReplica srv.world request.ServerName
              (request.ReplicaIdx : Int)).2.2]
        ++ ((env.RemoveServerReplica srv.world request.ServerName
              (request.ReplicaIdx : Int)).2.1.zip results).map
            (fun p => Action.Schedule p.1 p.2)) ∧
    (subscribeWait env srv request WaitEvent.ctxDone).2.2 = none := by
  obtain ⟨results, hlen, htrace⟩ := rescheduleModels_trace env
    (env.RemoveServerReplica srv.world request.ServerName (request.ReplicaIdx : Int)).2.1
    (env.RemoveServerReplica srv.world request.ServerName (request.ReplicaIdx : Int)).1
  have hfull : (subscribeWait env srv request WaitEvent.ctxDone).2.1 =
      [Action.registryLock, Action.registryDelete (requestKey request),
        Action.registryUnlock,
        Action.RemoveServerReplica request.ServerName (request.ReplicaIdx : Int)
          (env.RemoveServerReplica srv.world request.ServerName
            (request.ReplicaIdx : Int)).2.1
          (env.RemoveServerReplica srv.world request.ServerName
            (request.ReplicaIdx : Int)).2.2]
      ++ ((env.RemoveServerReplica srv.world request.ServerName
            (request.ReplicaIdx : Int)).2.1.zip results).map
          (fun p => Action.Schedule p.1 p.2) := by
    simp only [subscribeWait, subscribeCtxDone, htrace]
  refine ⟨mapLookup_mapDelete _ _, entriesFor_mapDelete _ _, ?_, ?_, ⟨results, hlen, hfull⟩, rfl⟩
  · rw [hfull]
    unfold removalsOf
    rw [List.filterMap_append]
    have := removalsOf_scheduled (env.RemoveServerReplica srv.world request.ServerName
      (request.ReplicaIdx : Int)).2.1 results
    unfold removalsOf at this
    rw [this]
    simp
  · rw [hfull]
    unfold schedulesOf
    rw [List.filterMap_append]
    have := schedulesOf_scheduled _ _ hlen
    unfold schedulesOf at this
    rw [this]
    simp

/-- C10 for the replica `(serverU, 0)` hosting `m4` and `m5`, with every `Schedule` call
failing: after setup and cancellation the entry is gone, both models were scheduled, and
`Subscribe` returns the nil error. -/
theorem Subscribe_disconnect_reschedules_witness :
    schedulesOf (subscribeWait failingScheduleEnv serverWithU requestU WaitEvent.ctxDone).2.1
      = ["m4", "m5"] ∧
    mapLookup (Subscribe failingScheduleEnv (NewAgentServer ()) requestU 7 7
      WaitEvent.ctxDone).1.agents (requestKey requestU) = none ∧
    schedulesOf (Subscribe failingScheduleEnv (NewAgentServer ()) requestU 7 7
      WaitEvent.ctxDone).2.1 = ["m4", "m5"] ∧
    (Subscribe failingScheduleEnv (NewAgentServer ()) requestU 7 7 WaitEvent.ctxDone).2.2
      = none :=
  ⟨(Subscribe_disconnect_reschedules failingScheduleEnv serverWithU requestU).2.2.2.1,
    by decide, by decide, by decide⟩

/-! ## Sessions of one replica key -/

theorem subscribeSetup_agents {σ : Type} (env : Env σ) (srv : Server σ)
    (request : AgentSubscribeRequest) (fin stream : Nat) :
    (subscribeSetup env srv request fin stream).1.agents
      = mapInsert srv.agents (requestKey request) { finished := fin, stream := stream } := rfl

theorem subscribeCtxDone_agents {σ : Type} (env : Env σ) (srv : Server σ)
    (request : AgentSubscribeRequest) :
    (subscribeCtxDone env srv request).1.agents = mapDelete srv.agents (requestKey request) :=
  rfl

/-- After a `Subscribe` step the registry entry of the key is the new session's. -/
theorem sessionStep_subscribe_lookup {σ : Type} (env : Env σ)
    (request : AgentSubscribeRequest) (st : Sessions σ) :
    mapLookup (sessionStep env request st SessionEvent.subscribe).server.agents
        (requestKey request) = some { finished := st.next, stream := st.next } ∧
    entriesFor (sessionStep env request st SessionEvent.subscribe).server.agents
        (requestKey request) = [{ finished := st.next, stream := st.next }] ∧
    (sessionStep env request st SessionEvent.subscribe).next = st.next + 1 ∧
    (sessionStep env request st SessionEvent.subscribe).gone = st.gone ∧
    ((sessionStep env request st SessionEvent.subscribe).waiting = st.next :: st.waiting ∧
      (sessionStep env request st SessionEvent.subscribe).failed = st.failed ∨
     (sessionStep env request st SessionEvent.subscribe).waiting = st.waiting ∧
      (sessionStep env request st SessionEvent.subscribe).failed = st.next :: st.failed) := by
  unfold sessionStep
  simp only []
  split
  · exact ⟨by rw [subscribeSetup_agents]; exact mapLookup_mapInsert _ _ _,
      by rw [subscribeSetup_agents]; exact entriesFor_mapInsert _ _ _, rfl, rfl,
      Or.inr ⟨rfl, rfl⟩⟩
  · exact ⟨by rw [subscribeSetup_agents]; exact mapLookup_mapInsert _ _ _,
      by rw [subscribeSetup_agents]; exact entriesFor_mapInsert _ _ _, rfl, rfl,
      Or.inl ⟨rfl, rfl⟩⟩

theorem sessionStep_inv {σ : Type} (env : Env σ) (request : AgentSubscribeRequest)
    (st : Sessions σ) (ev : SessionEvent) (h : SessionsInv (requestKey request) st) :
    SessionsInv (requestKey request) (sessionStep env request st ev) := by
  obtain ⟨_, hw, hg, hsorted, _⟩ := h
  cases ev with
  | subscribe =>
    obtain ⟨hlook, hent, hnext, hgone, hwf⟩ := sessionStep_subscribe_lookup env request st
    refine ⟨by rw [hent]; simp, ?_, ?_, ?_, ?_⟩
    · intro s hs
      rw [hnext]
      rcases hwf with ⟨hw2, _⟩ | ⟨hw2, _⟩
      · rw [hw2, List.mem_cons] at hs
        rcases hs with rfl | hs
        · omega
        · have := hw s hs
          omega
      · rw [hw2] at hs
        have := hw s hs
        omega
    · intro s hs
      rw [hnext]
      rw [hgone] at hs
      have := hg s hs
      omega
    · rcases hwf with ⟨hw2, _⟩ | ⟨hw2, _⟩
      · rw [hw2, List.pairwise_cons]
        exact ⟨fun s hs => hw s hs, hsorted⟩
      · rw [hw2]
        exact hsorted
    · intro sub hsub
      rw [hlook] at hsub
      cases hsub
      refine ⟨hnext.symm, ?_, ?_⟩
      · rw [hgone]
        intro hin
        have := hg _ hin
        simp at this
      · rcases hwf with ⟨hw2, _⟩ | ⟨_, hf2⟩
        · left
          rw [hw2]
          exact List.mem_cons_self _ _
        · right
          rw [hf2]
          exact List.mem_cons_self _ _
  | disconnect session =>
    unfold sessionStep
    by_cases hin : session ∈ st.waiting
    · simp only [hin, if_true]
      refine ⟨?_, ?_, ?_, ?_, ?_⟩
      · show (entriesFor (subscribeCtxDone env st.server request).1.agents
          (requestKey request)).length ≤ 1
        rw [subscribeCtxDone_agents, entriesFor_mapDelete]
        simp
      · intro s hs
        exact hw s (List.mem_of_mem_erase hs)
      · intro s hs
        show s < st.next
        have hs2 : s ∈ session :: st.gone := hs
        rw [List.mem_cons] at hs2
        rcases hs2 with rfl | hs2
        · exact hw _ hin
        · exact hg s hs2
      · exact hsorted.sublist (List.erase_sublist _ _)
      · intro sub hsub
        have hnone : mapLookup (subscribeCtxDone env st.server request).1.agents
            (requestKey request) = none := by
          rw [subscribeCtxDone_agents]
          exact mapLookup_mapDelete _ _
        have hsub2 : mapLookup (subscribeCtxDone env st.server request).1.agents
            (requestKey request) = some sub := hsub
        rw [hnone] at hsub2
        cases hsub2
    · simp only [hin, if_false]
      exact ⟨by assumption, hw, hg, hsorted, by assumption⟩

theorem runSessions_inv {σ : Type} (env : Env σ) (request : AgentSubscribeRequest)
    (evs : List SessionEvent) (st : Sessions σ) (h : SessionsInv (requestKey request) st) :
    SessionsInv (requestKey request) (runSessions env request st evs) := by
  induction evs generalizing st with
  | nil => exact h
  | cons ev rest ih =>
    exact ih (sessionStep env request st ev) (sessionStep_inv env request st ev h)

theorem startSessions_inv {σ : Type} (key : ServerKey) (srv : Server σ)
    (h : mapLookup srv.agents key = none) : SessionsInv key (startSessions srv) := by
  refine ⟨?_, ?_, ?_, List.Pairwise.nil, ?_⟩
  · show (entriesFor srv.agents key).length ≤ 1
    rw [entriesFor_of_lookup_none _ _ h]
    simp
  · intro s hs
    cases hs
  · intro s hs
    cases hs
  · intro sub hsub
    have hsub2 : mapLookup srv.agents key = some sub := hsub
    rw [h] at hsub2
    cases hsub2

/-- A session whose setup failed is never in the wait loop. -/
theorem sessionStep_failed_apart {σ : Type} (env : Env σ) (request : AgentSubscribeRequest)
    (st : Sessions σ) (ev : SessionEvent)
    (h : (∀ s ∈ st.waiting, s < st.next) ∧ (∀ s ∈ st.failed, s < st.next) ∧
      (∀ s ∈ st.failed, s ∉ st.waiting)) :
    (∀ s ∈ (sessionStep env request st ev).waiting, s < (sessionStep env request st ev).next) ∧
    (∀ s ∈ (sessionStep env request st ev).failed, s < (sessionStep env request st ev).next) ∧
    (∀ s ∈ (sessionStep env request st ev).failed,
      s ∉ (sessionStep env request st ev).waiting) := by
  obtain ⟨hw, hf, hapart⟩ := h
  cases ev with
  | subscribe =>
    obtain ⟨_, _, hnext, _, hwf⟩ := sessionStep_subscribe_lookup env request st
    rw [hnext]
    rcases hwf with ⟨hw2, hf2⟩ | ⟨hw2, hf2⟩
    · rw [hw2, hf2]
      refine ⟨?_, ?_, ?_⟩
      · intro s hs
        rw [List.mem_cons] at hs
        rcases hs with rfl | hs
        · omega
        · have := hw s hs
          omega
      · intro s hs
        have := hf s hs
        omega
      · intro s hs hin
        rw [List.mem_cons] at hin
        rcases hin with rfl | hin
        · have := hf _ hs
          omega
        · exact hapart s hs hin
    · rw [hw2, hf2]
      refine ⟨?_, ?_, ?_⟩
      · intro s hs
        have := hw s hs
        omega
      · intro s hs
        rw [List.mem_cons] at hs
        rcases hs with rfl | hs
        · omega
        · have := hf s hs
          omega
      · intro s hs hin
        rw [List.mem_cons] at hs
        rcases hs with rfl | hs
        · have := hw _ hin
          omega
        · exact hapart s hs hin
  | disconnect session =>
    unfold sessionStep
    by_cases hin : session ∈ st.waiting
    · simp only [hin, if_true]
      refine ⟨?_, hf, ?_⟩
      · intro s hs
        exact hw s (List.mem_of_mem_erase hs)
      · intro s hs hmem
        exact hapart s hs (List.mem_of_mem_erase hmem)
    · simp only [hin, if_false]
      exact ⟨hw, hf, hapart⟩

theorem runSessions_failed_apart {σ : Type} (env : Env σ) (request : AgentSubscribeRequest)
    (evs : List SessionEvent) (st : Sessions σ)
    (h : (∀ s ∈ st.waiting, s < st.next) ∧ (∀ s ∈ st.failed, s < st.next) ∧
      (∀ s ∈ st.failed, s ∉ st.waiting)) :
    ∀ s ∈ (runSessions env request st evs).failed,
      s ∉ (runSessions env request st evs).waiting := by
  induction evs generalizing st with
  | nil => exact h.2.2
  | cons ev rest ih =>
    exact ih (sessionStep env request st ev) (sessionStep_failed_apart env request st ev h)

/-- C1, as the claim states it, fails: after two `Subscribe` calls for `(serverV, 1)` the
registry yields the second subscriber, but once the first session disconnects the lookup
yields nothing although the second session is still connected. -/
theorem registry_stale_disconnect :
    mapLookup (runSessions (calmEnv (fun _ => none) 0 []) requestV
        (startSessions (NewAgentServer ()))
        [SessionEvent.subscribe, SessionEvent.subscribe]).server.agents (requestKey requestV)
      = some { finished := 1, stream := 1 } ∧
    (runSessions (calmEnv (fun _ => none) 0 []) requestV (startSessions (NewAgentServer ()))
        [SessionEvent.subscribe, SessionEvent.subscribe,
          SessionEvent.disconnect 0]).waiting = [1] ∧
    mapLookup (runSessions (calmEnv (fun _ => none) 0 []) requestV
        (startSessions (NewAgentServer ()))
        [SessionEvent.subscribe, SessionEvent.subscribe,
          SessionEvent.disconnect 0]).server.agents (requestKey requestV)
      = none := by
  refine ⟨by decide, by decide, by decide⟩

/-- C1, amended. For every finite interleaving of `Subscribe` and disconnect steps of
sessions that use the same key, starting from a registry without an entry for the key:
the registry holds 0 or 1 entries for the key; an entry that is present is the one
inserted by the most recently subscribed session, which has not gone through the
disconnect step, and that session either is in its wait loop, and then it is the most
recently subscribed session still connected, or is a session whose `Subscribe` returned
at once with the error of its setup, and then it is not connected; and directly after a
further `Subscribe` the lookup yields that subscriber's stream. -/
theorem registry_single_entry {σ : Type} (env : Env σ) (request : AgentSubscribeRequest)
    (srv : Server σ) (evs : List SessionEvent)
    (hfresh : mapLookup srv.agents (requestKey request) = none) :
    (entriesFor (runSessions env request (startSessions srv) evs).server.agents
      (requestKey request)).length ≤ 1 ∧
    (∀ sub, mapLookup (runSessions env request (startSessions srv) evs).server.agents
        (requestKey request) = some sub →
      sub.stream + 1 = (runSessions env request (startSessions srv) evs).next ∧
      sub.stream ∉ (runSessions env request (startSessions srv) evs).gone ∧
      (sub.stream ∈ (runSessions env request (startSessions srv) evs).waiting →
        (runSessions env request (startSessions srv) evs).waiting.head? = some sub.stream) ∧
      (sub.stream ∈ (runSessions env request (startSessions srv) evs).waiting ∧
          (runSessions env request (startSessions srv) evs).waiting.head? = some sub.stream ∨
        sub.stream ∈ (runSessions env request (startSessions srv) evs).failed ∧
          sub.stream ∉ (runSessions env request (startSessions srv) evs).waiting)) ∧
    mapLookup (runSessions env request (startSessions srv)
        (evs ++ [SessionEvent.subscribe])).server.agents (requestKey request)
      = some { finished := (runSessions env request (startSessions srv) evs).next,
               stream := (runSessions env request (startSessions srv) evs).next } := by
  obtain ⟨hent, hw, _, hsorted, hentry⟩ :=
    runSessions_inv env request evs (startSessions srv)
      (startSessions_inv (requestKey request) srv hfresh)
  refine ⟨hent, ?_, ?_⟩
  · intro sub hsub
    obtain ⟨hnext, hgone, hwhere⟩ := hentry sub hsub
    have hhead : sub.stream ∈ (runSessions env request (startSessions srv) evs).waiting →
        (runSessions env request (startSessions srv) evs).waiting.head?
          = some sub.stream := by
      intro hin
      cases hwait : (runSessions env request (startSessions srv) evs).waiting with
      | nil =>
        rw [hwait] at hin
        cases hin
      | cons top rest =>
        rw [hwait] at hin hsorted hw
        rw [List.head?_cons]
        rw [List.mem_cons] at hin
        rcases hin with heq | hrest
        · rw [heq]
        · have h1 := (List.pairwise_cons.1 hsorted).1 _ hrest
          have h2 := hw top (List.mem_cons_self _ _)
          omega
    refine ⟨hnext, hgone, hhead, ?_⟩
    rcases hwhere with hin | hfailed
    · exact Or.inl ⟨hin, hhead hin⟩
    · refine Or.inr ⟨hfailed, ?_⟩
      refine runSessions_failed_apart env request evs (startSessions srv) ⟨?_, ?_, ?_⟩ _ hfailed
      · intro s hs
        cases hs
      · intro s hs
        cases hs
      · intro s hs
        cases hs
  · unfold runSessions
    rw [List.foldl_append]
    exact (sessionStep_subscribe_lookup env request _).1

/-- The second case of the entry's owner: when the setup of the second of two `Subscribe`
calls fails, the entry is that call's although its handler has returned, and the first
session stays in its wait loop. -/
theorem registry_entry_after_failed_setup :
    mapLookup (runSessions flakyEnv requestV (startSessions (NewAgentServer 0))
        [SessionEvent.subscribe, SessionEvent.subscribe]).server.agents (requestKey requestV)
      = some { finished := 1, stream := 1 } ∧
    (runSessions flakyEnv requestV (startSessions (NewAgentServer 0))
        [SessionEvent.subscribe, SessionEvent.subscribe]).waiting = [0] ∧
    (runSessions flakyEnv requestV (startSessions (NewAgentServer 0))
        [SessionEvent.subscribe, SessionEvent.subscribe]).failed = [1] := by
  refine ⟨by decide, by decide, by decide⟩

/-- C1 amended, for two `Subscribe` calls for `(serverV, 1)`: one entry, the second
subscriber's. -/
theorem registry_single_entry_witness :
    (entriesFor (runSessions (calmEnv (fun _ => none) 0 []) requestV
        (startSessions (NewAgentServer ()))
        [SessionEvent.subscribe, SessionEvent.subscribe]).server.agents
      (requestKey requestV)).length ≤ 1 ∧
    mapLookup (runSessions (calmEnv (fun _ => none) 0 []) requestV
        (startSessions (NewAgentServer ()))
        ([SessionEvent.subscribe] ++ [SessionEvent.subscribe])).server.agents
        (requestKey requestV)
      = some { finished := 1, stream := 1 } :=
  ⟨(registry_single_entry (calmEnv (fun _ => none) 0 []) requestV (NewAgentServer ())
      [SessionEvent.subscribe, SessionEvent.subscribe] rfl).1,
    (registry_single_entry (calmEnv (fun _ => none) 0 []) requestV (NewAgentServer ())
      [SessionEvent.subscribe] rfl).2.2⟩

/-! ## Subscriber lifecycle -/

/-- C11, as the claim states it, fails on the doneSignal path: for replica `(serverU, 0)`
on stream 7, a `Subscribe` that returns through the `fin` case returns the nil error, and
the registry still holds the entry that this call inserted. -/
theorem Subscribe_done_signal_entry_remains :
    (Subscribe (calmEnv (fun _ => none) 0 []) (NewAgentServer ()) requestU 7 7
      WaitEvent.finished).2.2 = none ∧
    mapLookup (Subscribe (calmEnv (fun _ => none) 0 []) (NewAgentServer ()) requestU 7 7
      WaitEvent.finished).1.agents (requestKey requestU)
      = some { finished := 7, stream := 7 } ∧
    entriesFor (Subscribe (calmEnv (fun _ => none) 0 []) (NewAgentServer ()) requestU 7 7
      WaitEvent.finished).1.agents (requestKey requestU)
      = [{ finished := 7, stream := 7 }] := by
  refine ⟨by decide, by decide, by decide⟩

/-- C11, amended. The registry entry inserted by a `Subscribe` call is destroyed when the
stream context of that session is cancelled: whatever the registry holds when the
cancellation is handled, afterwards it holds no entry for the key, so a `Subscribe` that
has returned through this path has left no entry of its own.  The doneSignal case
performs no action at all: it leaves the registry as it is and returns the nil error. -/
theorem Subscribe_lifecycle {σ : Type} (env : Env σ) (srv : Server σ)
    (request : AgentSubscribeRequest) (fin stream : Nat)
    (hsetup : (subscribeSetup env srv request fin stream).2.2 = none) :
    (∀ (atCancel : Server σ),
      mapLookup (subscribeWait env atCancel request WaitEvent.ctxDone).1.agents
        (requestKey request) = none ∧
      entriesFor (subscribeWait env atCancel request WaitEvent.ctxDone).1.agents
        (requestKey request) = [] ∧
      (subscribeWait env atCancel request WaitEvent.ctxDone).2.2 = none) ∧
    mapLookup (Subscribe env srv request fin stream WaitEvent.ctxDone).1.agents
      (requestKey request) = none ∧
    entriesFor (Subscribe env srv request fin stream WaitEvent.ctxDone).1.agents
      (requestKey request) = [] ∧
    (Subscribe env srv request fin stream WaitEvent.ctxDone).2.2 = none ∧
    (∀ (atSignal : Server σ),
      (subscribeWait env atSignal request WaitEvent.finished).1.agents = atSignal.agents ∧
      (subscribeWait env atSignal request WaitEvent.finished).2.1 = [] ∧
      (subscribeWait env atSignal request WaitEvent.finished).2.2 = none) ∧
    (Subscribe env srv request fin stream WaitEvent.finished).1.agents
      = (subscribeSetup env srv request fin stream).1.agents ∧
    (Subscribe env srv request fin stream WaitEvent.finished).2.2 = none := by
  have hdone : (Subscribe env srv request fin stream WaitEvent.ctxDone).1 =
      (subscribeCtxDone env (subscribeSetup env srv request fin stream).1 request).1 ∧
      (Subscribe env srv request fin stream WaitEvent.ctxDone).2.2 = none := by
    unfold Subscribe
    simp only [hsetup]
    exact ⟨rfl, rfl⟩
  have hfin : (Subscribe env srv request fin stream WaitEvent.finished).1 =
      (subscribeSetup env srv request fin stream).1 ∧
      (Subscribe env srv request fin stream WaitEvent.finished).2.2 = none := by
    unfold Subscribe
    simp only [hsetup]
    exact ⟨rfl, rfl⟩
  refine ⟨?_, ?_, ?_, hdone.2, ?_, ?_, hfin.2⟩
  · intro atCancel
    exact ⟨mapLookup_mapDelete _ _, entriesFor_mapDelete _ _, rfl⟩
  · rw [hdone.1]
    exact mapLookup_mapDelete _ _
  · rw [hdone.1]
    exact entriesFor_mapDelete _ _
  · intro atSignal
    exact ⟨rfl, rfl, rfl⟩
  · rw [hfin.1]

/-- C11 amended, for replica `(serverU, 0)` on stream 7: after a `Subscribe` ended by the
cancellation of its context the registry holds no entry for the key. -/
theorem Subscribe_lifecycle_witness :
    mapLookup (Subscribe failingScheduleEnv (NewAgentServer ()) requestU 7 7
      WaitEvent.ctxDone).1.agents (requestKey requestU) = none ∧
    entriesFor (Subscribe failingScheduleEnv (NewAgentServer ()) requestU 7 7
      WaitEvent.ctxDone).1.agents (requestKey requestU) = [] :=
  ⟨(Subscribe_lifecycle failingScheduleEnv (NewAgentServer ()) requestU 7 7 rfl).2.1,
    (Subscribe_lifecycle failingScheduleEnv (NewAgentServer ()) requestU 7 7 rfl).2.2.1⟩

/-! ## Scope of the registry lock -/

theorem underLock_append (held : Bool) (s t : List Action) :
    underLock held (s ++ t) = underLock held s ++ underLock (heldAtEnd held s) t := by
  induction s generalizing held with
  | nil => rfl
  | cons a rest ih =>
    simp only [List.cons_append, underLock, heldAtEnd, List.foldl_cons]
    by_cases hop : isRegistryLockOp a = true
    · simp only [hop, if_true]
      exact ih _
    · have hkeep : heldAfter held a = held := by
        cases a <;> simp_all [isRegistryLockOp, heldAfter]
      simp only [hop, hkeep]
      cases held
      · simpa [heldAtEnd] using ih false
      · simpa [heldAtEnd] using ih true

/-- What is performed under the lock is part of the trace. -/
theorem underLock_subset (held : Bool) (t : List Action) (a : Action)
    (h : a ∈ underLock held t) : a ∈ t := by
  induction t generalizing held with
  | nil => simp [underLock] at h
  | cons b rest ih =>
    simp only [underLock] at h
    split_ifs at h
    · exact List.mem_cons_of_mem _ (ih _ h)
    · rw [List.mem_cons] at h
      rcases h with rfl | h
      · exact List.mem_cons_self _ _
      · exact List.mem_cons_of_mem _ (ih _ h)
    · exact List.mem_cons_of_mem _ (ih _ h)

theorem heldAtEnd_append (held : Bool) (s t : List Action) :
    heldAtEnd held (s ++ t) = heldAtEnd (heldAtEnd held s) t := by
  simp [heldAtEnd, List.foldl_append]

/-- A trace without lock operations, run with the lock held, is under the lock as a
whole and leaves the lock held. -/
theorem underLock_held (t : List Action) (h : ∀ a ∈ t, isRegistryLockOp a = false) :
    underLock true t = t ∧ heldAtEnd true t = true := by
  induction t with
  | nil => exact ⟨rfl, rfl⟩
  | cons a rest ih =>
    have ha := h a (List.mem_cons_self _ _)
    have hrest := ih (fun b hb => h b (List.mem_cons_of_mem _ hb))
    have hkeep : heldAfter true a = true := by
      cases a <;> simp_all [isRegistryLockOp, heldAfter]
    constructor
    · simp only [underLock, ha, Bool.false_eq_true, if_false, if_true, hrest.1]
    · simp only [heldAtEnd, List.foldl_cons, hkeep]
      exact hrest.2

/-- A trace without lock operations, run with the lock free, has nothing under the lock
and leaves the lock free. -/
theorem underLock_free (t : List Action) (h : ∀ a ∈ t, isRegistryLockOp a = false) :
    underLock false t = [] ∧ heldAtEnd false t = false := by
  induction t with
  | nil => exact ⟨rfl, rfl⟩
  | cons a rest ih =>
    have ha := h a (List.mem_cons_self _ _)
    have hrest := ih (fun b hb => h b (List.mem_cons_of_mem _ hb))
    have hkeep : heldAfter false a = false := by
      cases a <;> simp_all [isRegistryLockOp, heldAfter]
    constructor
    · simp only [underLock, ha, Bool.false_eq_true, if_false, hrest.1]
    · simp only [heldAtEnd, List.foldl_cons, hkeep]
      exact hrest.2

theorem syncReplica_noLockOp {σ : Type} (env : Env σ) (agents : AgentsMap) (op : Operation)
    (expected desired : ModelReplicaState) (mv : ModelVersion) (r : Int) (w : σ) :
    ∀ a ∈ (syncReplica env agents op expected desired mv r w).2, isRegistryLockOp a = false := by
  intro a ha
  cases hl : mapLookup agents { serverName := mv.Server, replicaIdx := uint32 r } with
  | none =>
    simp only [syncReplica, hl, List.mem_singleton] at ha
    subst ha
    rfl
  | some sub =>
    cases hs : (env.Send w sub.stream
      { Operation := op, ModelVersion := { Model := mv.GetModel, Version := mv.GetVersion } }).2 with
    | none =>
      simp only [syncReplica, hl, hs, List.cons_append, List.nil_append, List.mem_cons,
        List.mem_singleton, List.not_mem_nil, or_false] at ha
      rcases ha with rfl | rfl | rfl | rfl | rfl <;> rfl
    | some e =>
      simp only [syncReplica, hl, hs, List.mem_cons, List.mem_singleton,
        List.not_mem_nil, or_false] at ha
      rcases ha with rfl | rfl | rfl | rfl <;> rfl

theorem syncReplicas_noLockOp {σ : Type} (env : Env σ) (agents : AgentsMap) (op : Operation)
    (expected desired : ModelReplicaState) (mv : ModelVersion) (rs : List Int) (w : σ) :
    ∀ a ∈ (syncReplicas env agents op expected desired mv rs w).2,
      isRegistryLockOp a = false := by
  induction rs generalizing w with
  | nil =>
    intro a ha
    simp [syncReplicas] at ha
  | cons r rest ih =>
    intro a ha
    simp only [syncReplicas, List.mem_append] at ha
    rcases ha with ha | ha
    · exact syncReplica_noLockOp env agents op expected desired mv r w a ha
    · exact ih _ a ha

theorem syncUnloads_noLockOp {σ : Type} (env : Env σ) (agents : AgentsMap)
    (versions : List ModelVersion) (w : σ) :
    ∀ a ∈ (syncUnloads env agents versions w).2, isRegistryLockOp a = false := by
  induction versions generalizing w with
  | nil =>
    intro a ha
    simp [syncUnloads] at ha
  | cons mv rest ih =>
    intro a ha
    simp only [syncUnloads, List.mem_append] at ha
    rcases ha with ha | ha
    · exact syncReplicas_noLockOp _ _ _ _ _ _ _ _ a ha
    · exact ih _ a ha

theorem syncBody_noLockOp {σ : Type} (env : Env σ) (agents : AgentsMap) (w : σ)
    (modelName : String) :
    ∀ a ∈ (syncBody env agents w modelName).2, isRegistryLockOp a = false := by
  intro a ha
  unfold syncBody at ha
  rcases hg : env.GetModel w modelName with ⟨m, e⟩
  rw [hg] at ha
  cases e with
  | some e => simp at ha
  | none =>
    cases m with
    | none => simp at ha
    | some model =>
      simp only [List.mem_append] at ha
      rcases ha with ha | ha
      · unfold syncLoads at ha
        cases hlat : model.GetLatest with
        | none => simp [hlat] at ha
        | some latest =>
          simp only [hlat] at ha
          exact syncReplicas_noLockOp _ _ _ _ _ _ _ _ a ha
      · exact syncUnloads_noLockOp _ _ _ _ a ha

theorem rescheduleModels_noLockOp {σ : Type} (env : Env σ) (models : List String) (w : σ) :
    ∀ a ∈ (rescheduleModels env models w).2, isRegistryLockOp a = false := by
  induction models generalizing w with
  | nil =>
    intro a ha
    simp [rescheduleModels] at ha
  | cons m rest ih =>
    intro a ha
    simp only [rescheduleModels, List.mem_cons] at ha
    rcases ha with rfl | ha
    · rfl
    · exact ih _ a ha

/-- The actions of `Sync` under the registry lock: all but the two lock operations. -/
theorem Sync_underLock {σ : Type} (env : Env σ) (agents : AgentsMap) (w : σ)
    (modelName : String) :
    underLock false (Sync env agents w modelName).2 =
      [Action.LockModel modelName, Action.GetModel modelName]
        ++ (syncBody env agents w modelName).2 ++ [Action.UnlockModel modelName] := by
  have hbody := underLock_held (syncBody env agents w modelName).2
    (syncBody_noLockOp env agents w modelName)
  have hsplit : (Sync env agents w modelName).2 =
      [Action.registryRLock, Action.LockModel modelName, Action.GetModel modelName]
        ++ ((syncBody env agents w modelName).2
          ++ [Action.UnlockModel modelName, Action.registryRUnlock]) := by
    simp [Sync]
  rw [hsplit, underLock_append, underLock_append]
  have h1 : underLock false
      [Action.registryRLock, Action.LockModel modelName, Action.GetModel modelName]
      = [Action.LockModel modelName, Action.GetModel modelName] := rfl
  have h2 : heldAtEnd false
      [Action.registryRLock, Action.LockModel modelName, Action.GetModel modelName]
      = true := rfl
  rw [h1, h2, hbody.1, hbody.2]
  simp [underLock, isRegistryLockOp, heldAfter]

/-- The actions of the `ctx.Done()` case under the registry lock: the map delete. -/
theorem subscribeCtxDone_underLock {σ : Type} (env : Env σ) (srv : Server σ)
    (request : AgentSubscribeRequest) :
    underLock false (subscribeCtxDone env srv request).2.1
      = [Action.registryDelete (requestKey request)] ∧
    heldAtEnd false (subscribeCtxDone env srv request).2.1 = false := by
  have hre := underLock_free
    (rescheduleModels env
      (env.RemoveServerReplica srv.world request.ServerName (request.ReplicaIdx : Int)).2.1
      (env.RemoveServerReplica srv.world request.ServerName (request.ReplicaIdx : Int)).1).2
    (rescheduleModels_noLockOp env _ _)
  simp only [subscribeCtxDone]
  rw [underLock_append, heldAtEnd_append]
  have h2 : heldAtEnd false
      [Action.registryLock, Action.registryDelete (requestKey request), Action.registryUnlock,
        Action.RemoveServerReplica request.ServerName (request.ReplicaIdx : Int)
          (env.RemoveServerReplica srv.world request.ServerName
            (request.ReplicaIdx : Int)).2.1
          (env.RemoveServerReplica srv.world request.ServerName
            (request.ReplicaIdx : Int)).2.2] = false := rfl
  rw [h2, hre.1, hre.2]
  exact ⟨rfl, rfl⟩

/-- The actions of `syncMessage` under the registry lock: its two collaborator calls. -/
theorem syncMessage_underLock {σ : Type} (env : Env σ) (w : σ)
    (request : AgentSubscribeRequest) :
    underLock false (syncMessage env w request).2.1 =
      Action.AddServerReplica request (env.AddServerReplica w request).2 ::
        (if (env.AddServerReplica w request).2 = none then
          [Action.ScheduleFailedModels
            (env.ScheduleFailedModels (env.AddServerReplica w request).1).2]
        else []) ∧
    heldAtEnd false (syncMessage env w request).2.1 = false := by
  unfold syncMessage
  cases h : (env.AddServerReplica w request).2 with
  | none => simp only [h]; exact ⟨rfl, rfl⟩
  | some e => simp only [h]; exact ⟨rfl, rfl⟩

/-- C12, as the claim states it, fails: in the `Sync` of the rollout store the LOAD_MODEL
send and the store calls `LockModel`, `GetModel` and `UpdateModelState` are performed while
the registry lock is held, and `syncMessage` performs `AddServerReplica` while it holds
the registry lock. -/
theorem registry_lock_held_across_calls :
    Action.Send 11
        { Operation := Operation.LOAD_MODEL,
          ModelVersion := { Model := protoOf "m1" 1 none none, Version := 3 } } none
      ∈ underLock false (Sync (calmEnv rolloutModels 0 []) rolloutAgents () "m1").2 ∧
    ((underLock false (Sync (calmEnv rolloutModels 0 []) rolloutAgents () "m1").2).filter
        isSendOrStoreCall).length = 6 ∧
    Action.LockModel "m1"
      ∈ underLock false (Sync (calmEnv rolloutModels 0 []) rolloutAgents () "m1").2 ∧
    Action.GetModel "m1"
      ∈ underLock false (Sync (calmEnv rolloutModels 0 []) rolloutAgents () "m1").2 ∧
    underLock false (syncMessage (calmEnv rolloutModels 0 []) () requestU).2.1
      = [Action.AddServerReplica requestU none, Action.ScheduleFailedModels none] := by
  refine ⟨by decide, by decide, by decide, by decide, by decide⟩

/-- C12, amended.  With the registry lock followed through the trace of each operation:
`Sync` holds the read lock from its first step to its return, so all its other actions,
every `LockModel`, `GetModel`, `stream.Send` and `UpdateModelState` among them, are
performed with the lock held; `syncMessage` holds the write lock across `AddServerReplica`
and `ScheduleFailedModels`; in `Subscribe` the actions under the lock are the map insert,
those of `syncMessage`, and the map delete of the disconnect case, so outside
`syncMessage` the lock is held only around writes of the map, and `RemoveServerReplica`
and the `Schedule` calls are performed with the lock free. -/
theorem registry_lock_scope {σ : Type} (env : Env σ) :
    (∀ (agents : AgentsMap) (w : σ) (modelName : String),
      underLock false (Sync env agents w modelName).2 =
        [Action.LockModel modelName, Action.GetModel modelName]
          ++ (syncBody env agents w modelName).2 ++ [Action.UnlockModel modelName]) ∧
    (∀ (agents : AgentsMap) (w : σ) (modelName : String) (a : Action),
      a ∈ (Sync env agents w modelName).2 → isSendOrStoreCall a = true →
        a ∈ underLock false (Sync env agents w modelName).2) ∧
    (∀ (w : σ) (request : AgentSubscribeRequest),
      underLock false (syncMessage env w request).2.1 =
        Action.AddServerReplica request (env.AddServerReplica w request).2 ::
          (if (env.AddServerReplica w request).2 = none then
            [Action.ScheduleFailedModels
              (env.ScheduleFailedModels (env.AddServerReplica w request).1).2]
          else [])) ∧
    (∀ (srv : Server σ) (request : AgentSubscribeRequest) (fin stream : Nat) (ev : WaitEvent),
      underLock false (Subscribe env srv request fin stream ev).2.1 =
        Action.registryInsert (requestKey request) { finished := fin, stream := stream } ::
          (underLock false (syncMessage env srv.world request).2.1 ++
            (if (subscribeSetup env srv request fin stream).2.2 = none ∧ ev = WaitEvent.ctxDone
              then [Action.registryDelete (requestKey request)] else []))) ∧
    (∀ (srv : Server σ) (request : AgentSubscribeRequest) (fin stream : Nat) (ev : WaitEvent)
      (a : Action), a ∈ underLock false (Subscribe env srv request fin stream ev).2.1 →
        isMapAccess a = true ∨ a ∈ (syncMessage env srv.world request).2.1) := by
  have hsetup : ∀ (srv : Server σ) (request : AgentSubscribeRequest) (fin stream : Nat),
      underLock false (subscribeSetup env srv request fin stream).2.1 =
        Action.registryInsert (requestKey request) { finished := fin, stream := stream } ::
          underLock false (syncMessage env srv.world request).2.1 ∧
      heldAtEnd false (subscribeSetup env srv request fin stream).2.1 = false := by
    intro srv request fin stream
    simp only [subscribeSetup]
    rw [underLock_append, heldAtEnd_append]
    have h2 : heldAtEnd false
        [Action.registryLock,
          Action.registryInsert (requestKey request) { finished := fin, stream := stream },
          Action.registryUnlock] = false := rfl
    rw [h2, (syncMessage_underLock env srv.world request).2]
    exact ⟨rfl, rfl⟩
  have hsub : ∀ (srv : Server σ) (request : AgentSubscribeRequest) (fin stream : Nat)
      (ev : WaitEvent),
      underLock false (Subscribe env srv request fin stream ev).2.1 =
        Action.registryInsert (requestKey request) { finished := fin, stream := stream } ::
          (underLock false (syncMessage env srv.world request).2.1 ++
            (if (subscribeSetup env srv request fin stream).2.2 = none ∧ ev = WaitEvent.ctxDone
              then [Action.registryDelete (requestKey request)] else [])) := by
    intro srv request fin stream ev
    cases hok : (subscribeSetup env srv request fin stream).2.2 with
    | some e =>
      have ht : (Subscribe env srv request fin stream ev).2.1
          = (subscribeSetup env srv request fin stream).2.1 := by
        unfold Subscribe
        simp only [hok]
      rw [ht]
      simp only [reduceCtorEq, false_and, if_false, List.append_nil]
      exact (hsetup srv request fin stream).1
    | none =>
      have ht : (Subscribe env srv request fin stream ev).2.1
          = (subscribeSetup env srv request fin stream).2.1 ++
            (subscribeWait env (subscribeSetup env srv request fin stream).1 request ev).2.1 := by
        unfold Subscribe
        simp only [hok]
      rw [ht]
      simp only [true_and]
      rw [underLock_append, (hsetup srv request fin stream).1,
        (hsetup srv request fin stream).2]
      cases ev with
      | finished =>
        simp only [subscribeWait, reduceCtorEq, if_false]
        rfl
      | ctxDone =>
        simp only [subscribeWait, if_true]
        rw [(subscribeCtxDone_underLock env _ request).1]
        rfl
  refine ⟨Sync_underLock env, ?_, fun w request => (syncMessage_underLock env w request).1,
    hsub, ?_⟩
  · intro agents w modelName a ha hcall
    rw [Sync_underLock]
    have hsplit : (Sync env agents w modelName).2 =
        Action.registryRLock ::
          (([Action.LockModel modelName, Action.GetModel modelName]
            ++ (syncBody env agents w modelName).2 ++ [Action.UnlockModel modelName])
            ++ [Action.registryRUnlock]) := by
      simp [Sync]
    rw [hsplit, List.mem_cons, List.mem_append, List.mem_singleton] at ha
    rcases ha with rfl | ha | rfl
    · cases hcall
    · exact ha
    · cases hcall
  · intro srv request fin stream ev a ha
    rw [hsub, List.mem_cons, List.mem_append] at ha
    rcases ha with rfl | ha | ha
    · exact Or.inl rfl
    · exact Or.inr (underLock_subset _ _ a ha)
    · left
      split_ifs at ha
      · rw [List.mem_singleton] at ha
        subst ha
        rfl
      · cases ha

/-- C12 amended, for replica `(serverU, 0)` that subscribes and disconnects: under the
registry lock are the insert, the two calls of `syncMessage` and the delete, while
`RemoveServerReplica` is performed with the lock free. -/
theorem registry_lock_scope_witness :
    underLock false (Subscribe failingScheduleEnv (NewAgentServer ()) requestU 7 7
      WaitEvent.ctxDone).2.1 =
      [Action.registryInsert (requestKey requestU) { finished := 7, stream := 7 },
        Action.AddServerReplica requestU none, Action.ScheduleFailedModels none,
        Action.registryDelete (requestKey requestU)] ∧
    removalsOf (Subscribe failingScheduleEnv (NewAgentServer ()) requestU 7 7
      WaitEvent.ctxDone).2.1 = [("serverU", 0)] :=
  ⟨((registry_lock_scope failingScheduleEnv).2.2.2.1 (NewAgentServer ()) requestU 7 7
      WaitEvent.ctxDone).trans (by decide),
    by decide⟩

end Agent
